import Mathlib

/-!
Shallow embedding of the `autoclip` V2 highlight pipeline
(`backend/app/pipeline/v2/`) and proofs about its specification claims.

Numbers: Python floats are modelled by exact rationals (`ℚ`) wherever the
source only uses field operations, `min`/`max`, `abs` and comparisons, and
by the reals (`ℝ`) for the two functions that need `sqrt`/`exp`
(`z_score` and the boundary scorer).  Python's `int(x)` (truncation toward
zero) is `pyInt`.  Python list slices `arr[a:b]` (with `0 ≤ a`) are
`pySlice`.  `np.max` over a (nonempty) array is `npMax`; the `0` returned
on the empty list is a sentinel that no modelled call path reaches.
Python's stable `sort`/`sorted` is `List.insertionSort` with a reflexive
total relation, which has the same stability behaviour.
-/

-- Rational arithmetic is `@[irreducible]` by default, which blocks `decide`
-- on concrete inputs; restore the ordinary reducibility for this development.
attribute [local semireducible] Rat.add Rat.mul Rat.inv Rat.sub Rat.ofScientific

set_option maxRecDepth 100000

namespace Autoclip

/-- Python `int(x)` for a rational: truncation toward zero. -/
def pyInt (q : ℚ) : ℤ := if 0 ≤ q then Rat.floor q else Rat.ceil q

/-- Python slice `l[a:b]` for `0 ≤ a` (negative/huge bounds degrade to the
clamping Python performs for nonnegative indices). -/
def pySlice {α : Type} (l : List α) (a b : ℤ) : List α :=
  (l.drop a.toNat).take (b - a).toNat

/-- `np.max` of an array; the source only applies it to nonempty slices. -/
def npMax : List ℚ → ℚ
  | [] => 0
  | x :: xs => xs.foldl max x

/-- Python `max(l, key=key)` over a nonempty list `a :: l`: keeps the first
element attaining the maximum key. -/
def pyMaxBy {α : Type} (key : α → ℚ) (a : α) (l : List α) : α :=
  l.foldl (fun best x => if key best < key x then x else best) a

lemma foldl_choice_mem {α : Type} (f : α → α → α) (hf : ∀ a b, f a b = a ∨ f a b = b) :
    ∀ (l : List α) (a : α), l.foldl f a ∈ a :: l := by
  intro l
  induction l with
  | nil => intro a; simp
  | cons x xs ih =>
    intro a
    have h := ih (f a x)
    rcases hf a x with h1 | h1 <;>
      · rw [List.foldl_cons]
        rcases List.mem_cons.mp h with h2 | h2 <;> simp [h1, h2] at * <;> tauto

lemma pyMaxBy_mem {α : Type} (key : α → ℚ) (a : α) (l : List α) :
    pyMaxBy key a l ∈ a :: l := by
  exact foldl_choice_mem _ (fun b x => by by_cases h : key b < key x <;> simp [h]) l a

/-! ### Configuration (`config.py`, class `V2PipelineConfig`) -/

/-- `V2PipelineConfig` from `config.py`.  `boring_duration_frac` models the
source field named `boring_duration_` + `ratio` (renamed here only for
identifier hygiene). -/
structure V2PipelineConfig where
  step_sec : ℚ
  audio_sample_rate : ℕ
  motion_fps : ℕ
  motion_width : ℕ
  min_clip_seconds : ℚ
  max_clip_seconds : ℚ
  pre_max : ℚ
  pre_min : ℚ
  post_max : ℚ
  post_min : ℚ
  fallback_pre : ℚ
  fallback_post : ℚ
  anchor_suppression_window_sec : ℚ
  anchor_excitement_threshold : ℚ
  max_anchors_per_minute : ℚ
  boundary_w_scene : ℚ
  boundary_w_audio_dip : ℚ
  boundary_w_fade : ℚ
  boundary_w_motion_valley : ℚ
  boundary_min_spacing_sec : ℚ
  boundary_candidate_threshold : ℚ
  target_clip_count_soft : ℕ
  overlap_iou_threshold : ℚ
  boring_threshold : ℚ
  boring_duration_frac : ℚ
  quality_w_excitement : ℚ
  quality_w_dead_time_penalty : ℚ
  quality_w_boundary_quality : ℚ
  quality_w_narrative : ℚ
  scene_threshold : ℚ
  write_debug_json : Bool
  write_debug_plot : Bool
  cache_version : String

/-- `DEFAULT_V2_CONFIG` from `config.py`. -/
def DEFAULT_V2_CONFIG : V2PipelineConfig where
  step_sec := 0.5
  audio_sample_rate := 16000
  motion_fps := 4
  motion_width := 160
  min_clip_seconds := 5
  max_clip_seconds := 60
  pre_max := 14
  pre_min := 2
  post_max := 28
  post_min := 2
  fallback_pre := 8
  fallback_post := 12
  anchor_suppression_window_sec := 4
  anchor_excitement_threshold := 0.3
  max_anchors_per_minute := 8
  boundary_w_scene := 0.45
  boundary_w_audio_dip := 0.25
  boundary_w_fade := 0.15
  boundary_w_motion_valley := 0.15
  boundary_min_spacing_sec := 1.5
  boundary_candidate_threshold := 0.1
  target_clip_count_soft := 200
  overlap_iou_threshold := 0.35
  boring_threshold := 0.15
  boring_duration_frac := 0.7
  quality_w_excitement := 0.4
  quality_w_dead_time_penalty := 0.2
  quality_w_boundary_quality := 0.2
  quality_w_narrative := 0.2
  scene_threshold := 0.3
  write_debug_json := true
  write_debug_plot := false
  cache_version := "v2.0.0"

/-! ### Features (`features.py`): data model, serialization, cache -/

/-- `ExtractedFeatures` from `features.py`, generic in the number type
(`ℚ` for the exact stages, `ℝ` for the boundary scorer). -/
structure ExtractedFeatures (α : Type) where
  times : List α
  audio_rms : List α
  audio_rms_z : List α
  motion_score : List α
  motion_score_z : List α
  excitement : List α
  scene_cuts : List α
  fade_timestamps : List α
  freeze_timestamps : List α
  duration : α
  step_sec : α
  version : String
deriving DecidableEq, Repr

/-- The parsed JSON object stored in the features cache.  The required keys
are mandatory (a payload missing one raises `KeyError` in `from_dict`,
which `load_cached_features` turns into a cache miss); `fade_timestamps`
and `freeze_timestamps` are read with `dict.get` and may be absent. -/
structure FeaturesPayload where
  times : List ℚ
  audio_rms : List ℚ
  audio_rms_z : List ℚ
  motion_score : List ℚ
  motion_score_z : List ℚ
  excitement : List ℚ
  scene_cuts : List ℚ
  fade_timestamps : Option (List ℚ)
  freeze_timestamps : Option (List ℚ)
  duration : ℚ
  step_sec : ℚ
  version : String
deriving DecidableEq, Repr

/-- `ExtractedFeatures.to_dict`. -/
def ExtractedFeatures.to_dict (f : ExtractedFeatures ℚ) : FeaturesPayload where
  times := f.times
  audio_rms := f.audio_rms
  audio_rms_z := f.audio_rms_z
  motion_score := f.motion_score
  motion_score_z := f.motion_score_z
  excitement := f.excitement
  scene_cuts := f.scene_cuts
  fade_timestamps := some f.fade_timestamps
  freeze_timestamps := some f.freeze_timestamps
  duration := f.duration
  step_sec := f.step_sec
  version := f.version

/-- `ExtractedFeatures.from_dict`: required keys are read directly, the two
optional event lists default to `[]` via `data.get(key, [])`. -/
def ExtractedFeatures.from_dict (data : FeaturesPayload) : ExtractedFeatures ℚ where
  times := data.times
  audio_rms := data.audio_rms
  audio_rms_z := data.audio_rms_z
  motion_score := data.motion_score
  motion_score_z := data.motion_score_z
  excitement := data.excitement
  scene_cuts := data.scene_cuts
  fade_timestamps := data.fade_timestamps.getD []
  freeze_timestamps := data.freeze_timestamps.getD []
  duration := data.duration
  step_sec := data.step_sec
  version := data.version

/-- `load_cached_features`: `content` is the parsed cache file (`none` when
the file is missing, is not valid JSON, or lacks a required key).  The only
validation performed on a parsed payload is the version comparison. -/
def load_cached_features (content : Option FeaturesPayload)
    (config : V2PipelineConfig) : Option (ExtractedFeatures ℚ) :=
  match content with
  | none => none
  | some data =>
    if data.version = config.cache_version then some (ExtractedFeatures.from_dict data)
    else none

/-- File-system operations, used to model the write behaviour of
`save_features_cache`. -/
inductive FsOp where
  | mkdirParents (path : String)
  | writeFile (path : String) (content : FeaturesPayload)
  | rename (src dst : String)
deriving DecidableEq, Repr

/-- The parent directory of a path (the `cache_path.parent` of `pathlib`). -/
def parentDir (path : String) : String :=
  let parts := (path.splitOn "/").dropLast
  String.intercalate "/" parts

/-- `save_features_cache` as the sequence of file-system operations it
performs: `cache_path.parent.mkdir(parents=True, exist_ok=True)` followed
by a single direct `open(cache_path, 'w')` + `json.dump`. -/
def save_features_cache (features : ExtractedFeatures ℚ) (cache_path : String) : List FsOp :=
  [FsOp.mkdirParents (parentDir cache_path),
   FsOp.writeFile cache_path features.to_dict]

/-- Does this operation write `path` directly? -/
def FsOp.writesTo (path : String) : FsOp → Bool
  | FsOp.writeFile p _ => p = path
  | _ => false

/-- Is this operation a rename of some other file onto `path`? -/
def FsOp.renamesOnto (path : String) : FsOp → Bool
  | FsOp.rename src dst => dst = path && src ≠ path
  | _ => false

/-- Modelled from the spec: the spec's claimed write discipline ("write
temporary, then rename").  An operation trace is an atomic temp-then-rename
publish of `path` when it never writes `path` directly and installs the
content by renaming some other file onto `path`. -/
def isAtomicTempRename (ops : List FsOp) (path : String) : Prop :=
  (∀ op ∈ ops, FsOp.writesTo path op = false) ∧
  (∃ op ∈ ops, FsOp.renamesOnto path op = true)

instance (ops : List FsOp) (path : String) : Decidable (isAtomicTempRename ops path) := by
  unfold isAtomicTempRename
  infer_instance

/-- A tiny concrete `ExtractedFeatures` value used in cache examples. -/
def emptyFeatures : ExtractedFeatures ℚ :=
  ⟨[], [], [], [], [], [], [], [], [], 0, 1/2, "v2.0.0"⟩

/-- A payload whose `version` matches the default config but whose array
fields have pairwise inconsistent lengths and whose optional event lists
are absent. -/
def inconsistentPayload : FeaturesPayload where
  times := [0, 1/2, 1]
  audio_rms := [7]
  audio_rms_z := []
  motion_score := [1, 2]
  motion_score_z := [3]
  excitement := [1, 2, 3, 4, 5]
  scene_cuts := [1/4]
  fade_timestamps := none
  freeze_timestamps := none
  duration := 1
  step_sec := 1/2
  version := "v2.0.0"

/-- C4: serializing an `ExtractedFeatures` with `to_dict` and deserializing
with `from_dict` reproduces every field exactly (in the exact-number model,
i.e. to full double precision in the float implementation), including the
`version` string. -/
theorem cache_round_trip (f : ExtractedFeatures ℚ) :
    ExtractedFeatures.from_dict (ExtractedFeatures.to_dict f) = f := by
  cases f
  rfl

/-- C3 counterexample: `save_features_cache` does not follow the claimed
temp-then-rename discipline on the cache path used by the runner — its
trace writes the cache path directly and contains no rename at all. -/
theorem save_cache_not_atomic :
    ¬ isAtomicTempRename
        (save_features_cache emptyFeatures "features/features_v2.json")
        "features/features_v2.json" := by
  decide

/-- C3 (amended): `save_features_cache` creates the parent directory and
then writes the serialized payload directly to the cache path in a single
`open(cache_path, "w")`; no temporary file and no rename are involved, so
a concurrent reader can observe a partially written file. -/
theorem save_cache_direct_write (f : ExtractedFeatures ℚ) (path : String) :
    save_features_cache f path =
      [FsOp.mkdirParents (parentDir path), FsOp.writeFile path f.to_dict] ∧
    ∀ op ∈ save_features_cache f path, ∀ src dst, op ≠ FsOp.rename src dst := by
  refine ⟨rfl, ?_⟩
  intro op hop src dst
  simp only [save_features_cache, List.mem_cons, List.mem_singleton, List.not_mem_nil,
    or_false] at hop
  rcases hop with h | h <;> subst h <;> intro hcontra <;> cases hcontra

/-- C10: cache loading validates only the version string — any parsed
payload whose `version` equals the config's `cache_version` is accepted
and deserialized as-is, with no consistency check on the array lengths
and with absent `fade_timestamps`/`freeze_timestamps` defaulting to `[]`. -/
theorem load_accepts_any_version_match (data : FeaturesPayload)
    (config : V2PipelineConfig) (h : data.version = config.cache_version) :
    load_cached_features (some data) config =
      some (ExtractedFeatures.from_dict data) := by
  simp [load_cached_features, h]

/-- C10 witness: a version-matching payload with inconsistent array lengths
and missing optional lists is accepted by `load_cached_features`. -/
theorem load_accepts_any_version_match_witness :
    inconsistentPayload.version = DEFAULT_V2_CONFIG.cache_version ∧
    load_cached_features (some inconsistentPayload) DEFAULT_V2_CONFIG =
      some (ExtractedFeatures.from_dict inconsistentPayload) ∧
    (ExtractedFeatures.from_dict inconsistentPayload).times.length ≠
      (ExtractedFeatures.from_dict inconsistentPayload).audio_rms.length ∧
    (ExtractedFeatures.from_dict inconsistentPayload).fade_timestamps = [] :=
  ⟨rfl, load_accepts_any_version_match inconsistentPayload DEFAULT_V2_CONFIG rfl,
    by decide, rfl⟩

/-! ### Boundary candidates (`boundaries.py`: data model and range queries) -/

/-- `BoundaryCandidate` from `boundaries.py`, generic in the number type. -/
structure BoundaryCandidate (α : Type) where
  time_sec : α
  score : α
  scene_strength : α
  audio_dip_strength : α
  fade_strength : α
  motion_valley_strength : α
deriving DecidableEq, Repr

/-- `get_boundaries_in_range`. -/
def get_boundaries_in_range (boundaries : List (BoundaryCandidate ℚ))
    (start_sec end_sec : ℚ) : List (BoundaryCandidate ℚ) :=
  boundaries.filter (fun b => decide (start_sec ≤ b.time_sec) && decide (b.time_sec ≤ end_sec))

/-- `get_best_boundary_in_range`: Python `max(in_range, key=score)`,
which keeps the first element attaining the maximal score. -/
def get_best_boundary_in_range (boundaries : List (BoundaryCandidate ℚ))
    (start_sec end_sec : ℚ) : Option (BoundaryCandidate ℚ) :=
  match get_boundaries_in_range boundaries start_sec end_sec with
  | [] => none
  | b :: rest => some (pyMaxBy (fun x => x.score) b rest)

/-! ### Anchors (`anchors.py`): data model and excitement integral -/

/-- `Anchor` from `anchors.py`. -/
structure Anchor where
  time_sec : ℚ
  score : ℚ
  audio_z : ℚ
  motion_z : ℚ
  reason : String
deriving DecidableEq, Repr

/-- `get_excitement_integral` from `anchors.py`. -/
def get_excitement_integral (features : ExtractedFeatures ℚ)
    (start_sec end_sec : ℚ) : ℚ :=
  let start_idx := max 0 (pyInt (start_sec / features.step_sec))
  let end_idx := min (features.excitement.length : ℤ) (pyInt (end_sec / features.step_sec) + 1)
  if start_idx ≥ end_idx then 0
  else (pySlice features.excitement start_idx end_idx).sum * features.step_sec

/-! ### Window selection (`windows.py`) -/

/-- `ClipWindow` from `windows.py`. -/
structure ClipWindow where
  start_sec : ℚ
  end_sec : ℚ
  anchor_time_sec : ℚ
  anchor_score : ℚ
  quality_score : ℚ
  excitement_score : ℚ
  dead_time_penalty : ℚ
  boundary_quality : ℚ
  narrative_score : ℚ
  start_boundary_score : ℚ
  end_boundary_score : ℚ
  start_reason : String
  end_reason : String
deriving DecidableEq, Repr

/-- `ClipWindow.duration`. -/
def ClipWindow.duration (w : ClipWindow) : ℚ := w.end_sec - w.start_sec

/-- `select_start_boundary`; returns `(start_time, boundary_score, reason)`. -/
def select_start_boundary (anchor_time : ℚ) (boundaries : List (BoundaryCandidate ℚ))
    (config : V2PipelineConfig) (video_duration : ℚ) : ℚ × ℚ × String :=
  let search_start := max 0 (anchor_time - config.pre_max)
  let search_end := max 0 (anchor_time - config.pre_min)
  if search_start ≥ search_end then
    (max 0 (anchor_time - config.fallback_pre), 0, "fallback_offset")
  else
    match get_best_boundary_in_range boundaries search_start search_end with
    | some best => (best.time_sec, best.score, "boundary_snap")
    | none => (max 0 (anchor_time - config.fallback_pre), 0, "fallback_offset")

/-- The local `end_preference_score` closure inside `select_end_boundary`:
boundary score plus a small bonus for excitement shortly before it. -/
def end_preference_score (anchor_time : ℚ) (features : ExtractedFeatures ℚ)
    (b : BoundaryCandidate ℚ) : ℚ :=
  let lookback_start := max anchor_time (b.time_sec - 3)
  let excitement := get_excitement_integral features lookback_start b.time_sec
  b.score + min 0.2 (excitement * 0.1)

/-- `select_end_boundary`; returns `(end_time, boundary_score, reason)`. -/
def select_end_boundary (anchor_time start_time : ℚ)
    (boundaries : List (BoundaryCandidate ℚ)) (features : ExtractedFeatures ℚ)
    (config : V2PipelineConfig) (video_duration : ℚ) : ℚ × ℚ × String :=
  let max_end := min video_duration (start_time + config.max_clip_seconds)
  let search_start := anchor_time + config.post_min
  let search_end := min max_end (anchor_time + config.post_max)
  if search_start ≥ search_end then
    (min (min video_duration (anchor_time + config.fallback_post))
      (start_time + config.max_clip_seconds), 0, "fallback_offset")
  else
    match boundaries.filter
        (fun b => decide (search_start ≤ b.time_sec) && decide (b.time_sec ≤ search_end)) with
    | [] =>
      (min (min video_duration (anchor_time + config.fallback_post))
        (start_time + config.max_clip_seconds), 0, "fallback_offset")
    | c :: cs =>
      let best := pyMaxBy (end_preference_score anchor_time features) c cs
      (best.time_sec, best.score, "boundary_snap")

/-- `compute_quality_score`; returns `(total_score, excitement_score,
dead_time_penalty, boundary_quality, narrative_score)`. -/
def compute_quality_score (start_sec end_sec anchor_time_sec anchor_score : ℚ)
    (features : ExtractedFeatures ℚ) (start_boundary_score end_boundary_score : ℚ)
    (config : V2PipelineConfig) : ℚ × ℚ × ℚ × ℚ × ℚ :=
  let duration := end_sec - start_sec
  let excitement := get_excitement_integral features start_sec end_sec
  let excitement_score := excitement / max 1 duration
  let start_idx := max 0 (pyInt (start_sec / features.step_sec))
  let end_idx := min (features.excitement.length : ℤ) (pyInt (end_sec / features.step_sec) + 1)
  let dead_time_penalty :=
    if end_idx > start_idx then
      let window_excitement := pySlice features.excitement start_idx end_idx
      let low_count := (window_excitement.filter (fun x => decide (x < 0.1))).length
      ((low_count : ℚ) / (window_excitement.length : ℚ)) * config.quality_w_dead_time_penalty
    else 0
  let boundary_quality := (start_boundary_score + end_boundary_score) / 2
  let min_offset := min (anchor_time_sec - start_sec) (end_sec - anchor_time_sec)
  let ideal_offset := duration * 0.2
  let narrative_score := if min_offset < ideal_offset then min_offset / ideal_offset else 1
  let total0 := config.quality_w_excitement * excitement_score +
    config.quality_w_boundary_quality * boundary_quality +
    config.quality_w_narrative * narrative_score - dead_time_penalty
  let total := total0 * (0.5 + 0.5 * min 1 anchor_score)
  (total, excitement_score, dead_time_penalty, boundary_quality, narrative_score)

/-- The too-short enforcement block inside the `select_windows` loop
(`windows.py` lines 230-245): symmetric expansion, then forcing the
minimum length against whichever edge is feasible.  Returns the adjusted
`(start, end, clip_duration)`; the third component is the Python local
`clip_duration`, which the force-minimum step does *not* refresh. -/
def enforce_min_duration (start0 end0 dur min_c : ℚ) : ℚ × ℚ × ℚ :=
  if end0 - start0 < min_c then
    let needed := min_c - (end0 - start0)
    let end1 := min dur (end0 + needed / 2)
    let start1 := max 0 (start0 - needed / 2)
    if end1 - start1 < min_c then
      if end1 < dur then (start1, min dur (start1 + min_c), end1 - start1)
      else (max 0 (end1 - min_c), end1, end1 - start1)
    else (start1, end1, end1 - start1)
  else (start0, end0, end0 - start0)

/-- The body of the per-anchor loop in `select_windows`: boundary
selection, duration enforcement, validity check, quality scoring.  Returns
`none` exactly when the loop hits `continue` (invalid window). -/
def build_window (anchor : Anchor) (boundaries : List (BoundaryCandidate ℚ))
    (features : ExtractedFeatures ℚ) (config : V2PipelineConfig) : Option ClipWindow :=
  let duration := features.duration
  let sres := select_start_boundary anchor.time_sec boundaries config duration
  let eres := select_end_boundary anchor.time_sec sres.1 boundaries features config duration
  let see := enforce_min_duration sres.1 eres.1 duration config.min_clip_seconds
  let ee : ℚ × String :=
    if see.2.2 > config.max_clip_seconds then
      (see.1 + config.max_clip_seconds, "hard_cut_max_duration")
    else (see.2.1, eres.2.2)
  if ee.1 ≤ see.1 then none
  else
    let q := compute_quality_score see.1 ee.1 anchor.time_sec anchor.score
      features sres.2.1 eres.2.1 config
    some {
      start_sec := see.1
      end_sec := ee.1
      anchor_time_sec := anchor.time_sec
      anchor_score := anchor.score
      quality_score := q.1
      excitement_score := q.2.1
      dead_time_penalty := q.2.2.1
      boundary_quality := q.2.2.2.1
      narrative_score := q.2.2.2.2
      start_boundary_score := sres.2.1
      end_boundary_score := eres.2.1
      start_reason := sres.2.2
      end_reason := ee.2 }

/-- `select_windows`: one window per anchor, skipping invalid ones. -/
def select_windows (anchors : List Anchor) (boundaries : List (BoundaryCandidate ℚ))
    (features : ExtractedFeatures ℚ) (config : V2PipelineConfig) : List ClipWindow :=
  anchors.filterMap (fun a => build_window a boundaries features config)

/-! ### Bounds on the window-selection helpers -/

lemma get_best_boundary_in_range_bounds {bs : List (BoundaryCandidate ℚ)} {s e : ℚ}
    {b : BoundaryCandidate ℚ} (h : get_best_boundary_in_range bs s e = some b) :
    s ≤ b.time_sec ∧ b.time_sec ≤ e := by
  unfold get_best_boundary_in_range at h
  rcases hm : get_boundaries_in_range bs s e with _ | ⟨c, cs⟩ <;> rw [hm] at h
  · cases h
  · injection h with h2
    have hmem : b ∈ c :: cs := h2 ▸ pyMaxBy_mem (fun x : BoundaryCandidate ℚ => x.score) c cs
    rw [← hm] at hmem
    unfold get_boundaries_in_range at hmem
    have hp := (List.mem_filter.mp hmem).2
    simp only [Bool.and_eq_true, decide_eq_true_eq] at hp
    exact hp

lemma select_start_bounds (t : ℚ) (bs : List (BoundaryCandidate ℚ))
    (c : V2PipelineConfig) (d : ℚ) (ht : 0 ≤ t)
    (hpre : 0 ≤ c.pre_min) (hfb : 0 ≤ c.fallback_pre) :
    0 ≤ (select_start_boundary t bs c d).1 ∧
    (select_start_boundary t bs c d).1 ≤ t ∧
    t - max c.pre_max c.fallback_pre ≤ (select_start_boundary t bs c d).1 := by
  have hfb1 : (0 : ℚ) ≤ max 0 (t - c.fallback_pre) := le_max_left _ _
  have hfb2 : max 0 (t - c.fallback_pre) ≤ t := max_le ht (by linarith)
  have hfb3 : t - max c.pre_max c.fallback_pre ≤ max 0 (t - c.fallback_pre) :=
    (sub_le_sub_left (le_max_right c.pre_max c.fallback_pre) t).trans (le_max_right _ _)
  unfold select_start_boundary
  dsimp only
  split
  · exact ⟨hfb1, hfb2, hfb3⟩
  · split
    · rename_i best hbest
      obtain ⟨h1, h2⟩ := get_best_boundary_in_range_bounds hbest
      refine ⟨(le_max_left _ _).trans h1, h2.trans (max_le ht (by linarith)), ?_⟩
      refine le_trans ?_ h1
      exact ((sub_le_sub_left (le_max_left c.pre_max c.fallback_pre) t).trans (le_max_right _ _))
    · exact ⟨hfb1, hfb2, hfb3⟩

lemma select_end_filter_bounds {t s : ℚ} {bs : List (BoundaryCandidate ℚ)}
    {c : V2PipelineConfig} {d : ℚ} {c0 : BoundaryCandidate ℚ} {cs : List (BoundaryCandidate ℚ)}
    (f : ExtractedFeatures ℚ)
    (heq : bs.filter (fun b => decide (t + c.post_min ≤ b.time_sec) &&
        decide (b.time_sec ≤ min (min d (s + c.max_clip_seconds)) (t + c.post_max))) = c0 :: cs) :
    t + c.post_min ≤ (pyMaxBy (end_preference_score t f) c0 cs).time_sec ∧
    (pyMaxBy (end_preference_score t f) c0 cs).time_sec ≤
      min (min d (s + c.max_clip_seconds)) (t + c.post_max) := by
  have hmem : pyMaxBy (end_preference_score t f) c0 cs ∈ c0 :: cs := pyMaxBy_mem _ _ _
  rw [← heq] at hmem
  have hp := (List.mem_filter.mp hmem).2
  simp only [Bool.and_eq_true, decide_eq_true_eq] at hp
  exact hp

lemma select_end_le_max (t s : ℚ) (bs : List (BoundaryCandidate ℚ))
    (f : ExtractedFeatures ℚ) (c : V2PipelineConfig) (d : ℚ) :
    (select_end_boundary t s bs f c d).1 ≤ s + c.max_clip_seconds := by
  unfold select_end_boundary
  dsimp only
  split
  · exact min_le_right _ _
  · split
    · exact min_le_right _ _
    · rename_i c0 cs heq
      have hb := (select_end_filter_bounds f heq).2
      exact hb.trans ((min_le_left _ _).trans (min_le_right _ _))

lemma select_end_bounds (t s : ℚ) (bs : List (BoundaryCandidate ℚ))
    (f : ExtractedFeatures ℚ) (c : V2PipelineConfig) (d : ℚ)
    (htd : t ≤ d) (hpost : 0 ≤ c.post_min) (hfb : 0 ≤ c.fallback_post)
    (hts : t ≤ s + c.max_clip_seconds) :
    t ≤ (select_end_boundary t s bs f c d).1 ∧
    (select_end_boundary t s bs f c d).1 ≤ d := by
  have hfb1 : t ≤ min (min d (t + c.fallback_post)) (s + c.max_clip_seconds) :=
    le_min (le_min htd (by linarith)) hts
  have hfb2 : min (min d (t + c.fallback_post)) (s + c.max_clip_seconds) ≤ d :=
    (min_le_left _ _).trans (min_le_left _ _)
  unfold select_end_boundary
  dsimp only
  split
  · exact ⟨hfb1, hfb2⟩
  · split
    · exact ⟨hfb1, hfb2⟩
    · rename_i c0 cs heq
      obtain ⟨h1, h2⟩ := select_end_filter_bounds f heq
      exact ⟨by linarith, h2.trans ((min_le_left _ _).trans (min_le_left _ _))⟩

lemma select_end_reason (t s : ℚ) (bs : List (BoundaryCandidate ℚ))
    (f : ExtractedFeatures ℚ) (c : V2PipelineConfig) (d : ℚ) :
    (select_end_boundary t s bs f c d).2.2 = "fallback_offset" ∨
    (select_end_boundary t s bs f c d).2.2 = "boundary_snap" := by
  unfold select_end_boundary
  dsimp only
  split
  · exact Or.inl rfl
  · split
    · exact Or.inl rfl
    · exact Or.inr rfl

lemma enforce_min_duration_stale_le (s e d mc : ℚ) :
    (enforce_min_duration s e d mc).2.2 ≤ max mc (e - s) := by
  have h1 : min d (e + (mc - (e - s)) / 2) ≤ e + (mc - (e - s)) / 2 := min_le_right _ _
  have h2 : s - (mc - (e - s)) / 2 ≤ max 0 (s - (mc - (e - s)) / 2) := le_max_right _ _
  have h3 : mc ≤ max mc (e - s) := le_max_left _ _
  unfold enforce_min_duration
  dsimp only
  split
  · split
    · split <;> dsimp only <;> linarith
    · dsimp only; linarith
  · dsimp only; exact le_max_right _ _

lemma enforce_min_duration_spec (s e d mc t : ℚ)
    (h0 : 0 ≤ s) (hst : s ≤ t) (hte : t ≤ e) (hed : e ≤ d) (hmd : mc ≤ d) :
    0 ≤ (enforce_min_duration s e d mc).1 ∧
    (enforce_min_duration s e d mc).1 ≤ t ∧
    t ≤ (enforce_min_duration s e d mc).2.1 ∧
    (enforce_min_duration s e d mc).2.1 ≤ d ∧
    mc ≤ (enforce_min_duration s e d mc).2.1 - (enforce_min_duration s e d mc).1 ∧
    (enforce_min_duration s e d mc).2.1 - (enforce_min_duration s e d mc).1 ≤ max mc (e - s) := by
  have htd : t ≤ d := hte.trans hed
  have hmax1 : mc ≤ max mc (e - s) := le_max_left _ _
  have hmax2 : e - s ≤ max mc (e - s) := le_max_right _ _
  unfold enforce_min_duration
  dsimp only
  split
  · rename_i hshort
    have hxpos : 0 < (mc - (e - s)) / 2 := by linarith
    have hend1_le_d : min d (e + (mc - (e - s)) / 2) ≤ d := min_le_left _ _
    have hend1_le : min d (e + (mc - (e - s)) / 2) ≤ e + (mc - (e - s)) / 2 := min_le_right _ _
    have ht_end1 : t ≤ min d (e + (mc - (e - s)) / 2) := le_min htd (by linarith)
    have hstart1_0 : (0 : ℚ) ≤ max 0 (s - (mc - (e - s)) / 2) := le_max_left _ _
    have hstart1_le_s : max 0 (s - (mc - (e - s)) / 2) ≤ s := max_le h0 (by linarith)
    have hstart1_ge : s - (mc - (e - s)) / 2 ≤ max 0 (s - (mc - (e - s)) / 2) := le_max_right _ _
    split
    · rename_i hforce
      split
      · rename_i hlt
        -- force-minimum against the end: the start clamp must have fired
        have hend1_eq : min d (e + (mc - (e - s)) / 2) = e + (mc - (e - s)) / 2 := by
          rcases min_cases d (e + (mc - (e - s)) / 2) with ⟨hq, _⟩ | ⟨hq, _⟩
          · exact absurd hlt (by rw [hq]; exact lt_irrefl d)
          · exact hq
        have hstart1_eq : max 0 (s - (mc - (e - s)) / 2) = 0 := by
          rcases max_cases (0 : ℚ) (s - (mc - (e - s)) / 2) with ⟨hq, _⟩ | ⟨hq, hq2⟩
          · exact hq
          · exfalso; rw [hq, hend1_eq] at hforce; linarith
        have hemc : e + (mc - (e - s)) / 2 < mc := by
          have := hforce
          rw [hstart1_eq, hend1_eq] at this
          linarith
        have hmc_min : min d (max 0 (s - (mc - (e - s)) / 2) + mc) = mc := by
          rw [hstart1_eq, zero_add]
          exact min_eq_right hmd
        dsimp only
        rw [hmc_min, hstart1_eq]
        refine ⟨le_refl 0, ?_, ?_, ?_, ?_, ?_⟩ <;> linarith
      · rename_i hnlt
        -- force-minimum against the start: end hit the video duration
        have hend1_eq : min d (e + (mc - (e - s)) / 2) = d := le_antisymm hend1_le_d (not_lt.mp hnlt)
        have hstart2_eq : max 0 (min d (e + (mc - (e - s)) / 2) - mc) = d - mc := by
          rw [hend1_eq]; exact max_eq_right (by linarith)
        dsimp only
        rw [hstart2_eq, hend1_eq] at *
        refine ⟨by linarith, ?_, ?_, ?_, ?_, ?_⟩ <;> linarith
    · rename_i hok
      dsimp only
      refine ⟨hstart1_0, hstart1_le_s.trans hst, ht_end1, hend1_le_d, by linarith, by linarith⟩
  · rename_i hlong
    dsimp only
    refine ⟨h0, hst, hte, hed, by linarith, hmax2⟩

lemma enforce_min_duration_len_le (s e d mc : ℚ) :
    (enforce_min_duration s e d mc).2.1 - (enforce_min_duration s e d mc).1 ≤
      max mc (e - s) := by
  have h1 : min d (e + (mc - (e - s)) / 2) ≤ e + (mc - (e - s)) / 2 := min_le_right _ _
  have h2 : s - (mc - (e - s)) / 2 ≤ max 0 (s - (mc - (e - s)) / 2) := le_max_right _ _
  have h3 : mc ≤ max mc (e - s) := le_max_left _ _
  unfold enforce_min_duration
  dsimp only
  split
  · split
    · split
      · dsimp only
        have h4 : min d (max 0 (s - (mc - (e - s)) / 2) + mc) ≤
            max 0 (s - (mc - (e - s)) / 2) + mc := min_le_right _ _
        linarith
      · dsimp only
        have h4 : min d (e + (mc - (e - s)) / 2) - mc ≤
            max 0 (min d (e + (mc - (e - s)) / 2) - mc) := le_max_right _ _
        linarith
    · dsimp only
      linarith
  · dsimp only
    exact le_max_right _ _

lemma build_window_invariants {a : Anchor} {bs : List (BoundaryCandidate ℚ)}
    {fs : ExtractedFeatures ℚ} {cfg : V2PipelineConfig} {w : ClipWindow}
    (hmind : cfg.min_clip_seconds ≤ fs.duration)
    (hminmax : cfg.min_clip_seconds ≤ cfg.max_clip_seconds)
    (hpremin : 0 ≤ cfg.pre_min) (hpostmin : 0 ≤ cfg.post_min)
    (hfbpre : 0 ≤ cfg.fallback_pre) (hfbpost : 0 ≤ cfg.fallback_post)
    (hpremax : cfg.pre_max ≤ cfg.max_clip_seconds)
    (hfbpremax : cfg.fallback_pre ≤ cfg.max_clip_seconds)
    (ht0 : 0 ≤ a.time_sec) (htd : a.time_sec ≤ fs.duration)
    (hw : build_window a bs fs cfg = some w) :
    w.start_sec < w.end_sec ∧
    cfg.min_clip_seconds ≤ w.end_sec - w.start_sec ∧
    w.end_sec - w.start_sec ≤ cfg.max_clip_seconds ∧
    w.start_sec ≤ w.anchor_time_sec ∧ w.anchor_time_sec ≤ w.end_sec ∧
    0 ≤ w.start_sec ∧ w.end_sec ≤ fs.duration ∧
    w.anchor_time_sec = a.time_sec := by
  obtain ⟨hs0, hs1, hs2⟩ := select_start_bounds a.time_sec bs cfg fs.duration ht0 hpremin hfbpre
  have hts : a.time_sec ≤
      (select_start_boundary a.time_sec bs cfg fs.duration).1 + cfg.max_clip_seconds := by
    have hmx : max cfg.pre_max cfg.fallback_pre ≤ cfg.max_clip_seconds :=
      max_le hpremax hfbpremax
    linarith
  obtain ⟨he1, he2⟩ := select_end_bounds a.time_sec
    (select_start_boundary a.time_sec bs cfg fs.duration).1 bs fs cfg fs.duration
    htd hpostmin hfbpost hts
  have hemax := select_end_le_max a.time_sec
    (select_start_boundary a.time_sec bs cfg fs.duration).1 bs fs cfg fs.duration
  obtain ⟨g1, g2, g3, g4, g5, g6⟩ := enforce_min_duration_spec
    (select_start_boundary a.time_sec bs cfg fs.duration).1
    (select_end_boundary a.time_sec
      (select_start_boundary a.time_sec bs cfg fs.duration).1 bs fs cfg fs.duration).1
    fs.duration cfg.min_clip_seconds a.time_sec hs0 hs1 he1 he2 hmind
  have hstale2 : (enforce_min_duration
      (select_start_boundary a.time_sec bs cfg fs.duration).1
      (select_end_boundary a.time_sec
        (select_start_boundary a.time_sec bs cfg fs.duration).1 bs fs cfg fs.duration).1
      fs.duration cfg.min_clip_seconds).2.2 ≤ cfg.max_clip_seconds := by
    refine (enforce_min_duration_stale_le _ _ _ _).trans (max_le hminmax ?_)
    linarith
  unfold build_window at hw
  dsimp only at hw
  split at hw
  · rename_i hhard
    exact absurd hhard (by push_neg; exact hstale2)
  · split at hw
    · cases hw
    · rename_i hnothard hvalid
      have g6' : (enforce_min_duration
          (select_start_boundary a.time_sec bs cfg fs.duration).1
          (select_end_boundary a.time_sec
            (select_start_boundary a.time_sec bs cfg fs.duration).1 bs fs cfg fs.duration).1
          fs.duration cfg.min_clip_seconds).2.1 -
          (enforce_min_duration
            (select_start_boundary a.time_sec bs cfg fs.duration).1
            (select_end_boundary a.time_sec
              (select_start_boundary a.time_sec bs cfg fs.duration).1 bs fs cfg fs.duration).1
            fs.duration cfg.min_clip_seconds).1 ≤ cfg.max_clip_seconds :=
        g6.trans (max_le hminmax (by linarith))
      rw [Option.some.injEq] at hw
      subst hw
      push_neg at hvalid
      dsimp only at hvalid ⊢
      refine ⟨hvalid, g5, g6', g2, g3, g1, g4, rfl⟩

/-- C1 (amended): every window produced by `select_windows` satisfies
the `ClipWindow` invariants, provided the video is at least
`min_clip_seconds` long and the configuration satisfies the sanity
conditions that the default configuration satisfies. -/
theorem select_windows_invariants (anchors : List Anchor)
    (boundaries : List (BoundaryCandidate ℚ)) (features : ExtractedFeatures ℚ)
    (config : V2PipelineConfig)
    (hmind : config.min_clip_seconds ≤ features.duration)
    (hminmax : config.min_clip_seconds ≤ config.max_clip_seconds)
    (hpremin : 0 ≤ config.pre_min) (hpostmin : 0 ≤ config.post_min)
    (hfbpre : 0 ≤ config.fallback_pre) (hfbpost : 0 ≤ config.fallback_post)
    (hpremax : config.pre_max ≤ config.max_clip_seconds)
    (hfbpremax : config.fallback_pre ≤ config.max_clip_seconds)
    (hanchors : ∀ a ∈ anchors, 0 ≤ a.time_sec ∧ a.time_sec ≤ features.duration) :
    ∀ w ∈ select_windows anchors boundaries features config,
      w.start_sec < w.end_sec ∧
      config.min_clip_seconds ≤ w.end_sec - w.start_sec ∧
      w.end_sec - w.start_sec ≤ config.max_clip_seconds ∧
      w.start_sec ≤ w.anchor_time_sec ∧ w.anchor_time_sec ≤ w.end_sec ∧
      0 ≤ w.start_sec ∧ w.end_sec ≤ features.duration := by
  intro w hw
  obtain ⟨a, ha, hbuild⟩ := List.mem_filterMap.mp hw
  obtain ⟨ha0, had⟩ := hanchors a ha
  obtain ⟨i1, i2, i3, i4, i5, i6, i7, _⟩ := build_window_invariants hmind hminmax hpremin
    hpostmin hfbpre hfbpost hpremax hfbpremax ha0 had hbuild
  exact ⟨i1, i2, i3, i4, i5, i6, i7⟩

/-- C2 (amended): `select_end_boundary` already caps the selected end at
`start + max_clip_seconds`, so — whenever `min_clip_seconds ≤
max_clip_seconds` — the `clip_duration > max_clip_seconds` branch of
`select_windows` can never fire: no emitted window ever has
`end_reason = "hard_cut_max_duration"`, and every emitted window has
duration at most `max_clip_seconds`. -/
theorem select_windows_no_hard_cut (anchors : List Anchor)
    (boundaries : List (BoundaryCandidate ℚ)) (features : ExtractedFeatures ℚ)
    (config : V2PipelineConfig)
    (hminmax : config.min_clip_seconds ≤ config.max_clip_seconds) :
    ∀ w ∈ select_windows anchors boundaries features config,
      w.end_reason ≠ "hard_cut_max_duration" ∧
      w.end_sec - w.start_sec ≤ config.max_clip_seconds := by
  intro w hw
  obtain ⟨a, _, hbuild⟩ := List.mem_filterMap.mp hw
  have hemax := select_end_le_max a.time_sec
    (select_start_boundary a.time_sec boundaries config features.duration).1
    boundaries features config features.duration
  have hstale2 : (enforce_min_duration
      (select_start_boundary a.time_sec boundaries config features.duration).1
      (select_end_boundary a.time_sec
        (select_start_boundary a.time_sec boundaries config features.duration).1
        boundaries features config features.duration).1
      features.duration config.min_clip_seconds).2.2 ≤ config.max_clip_seconds :=
    (enforce_min_duration_stale_le _ _ _ _).trans (max_le hminmax (by linarith))
  have hlen : (enforce_min_duration
      (select_start_boundary a.time_sec boundaries config features.duration).1
      (select_end_boundary a.time_sec
        (select_start_boundary a.time_sec boundaries config features.duration).1
        boundaries features config features.duration).1
      features.duration config.min_clip_seconds).2.1 -
      (enforce_min_duration
        (select_start_boundary a.time_sec boundaries config features.duration).1
        (select_end_boundary a.time_sec
          (select_start_boundary a.time_sec boundaries config features.duration).1
          boundaries features config features.duration).1
        features.duration config.min_clip_seconds).1 ≤ config.max_clip_seconds :=
    (enforce_min_duration_len_le _ _ _ _).trans (max_le hminmax (by linarith))
  have hreason := select_end_reason a.time_sec
    (select_start_boundary a.time_sec boundaries config features.duration).1
    boundaries features config features.duration
  unfold build_window at hbuild
  dsimp only at hbuild
  split at hbuild
  · rename_i hhard
    exact absurd hhard (by push_neg; exact hstale2)
  · split at hbuild
    · cases hbuild
    · rename_i hnothard hvalid
      rw [Option.some.injEq] at hbuild
      subst hbuild
      dsimp only
      constructor
      · rcases hreason with h | h <;> rw [h] <;> decide
      · exact hlen

/-! ### Concrete window-selection scenarios -/

/-- A 3-second video at `step_sec = 0.5` with no activity. -/
def shortFeatures : ExtractedFeatures ℚ where
  times := [0, 1/2, 1, 3/2, 2, 5/2, 3]
  audio_rms := List.replicate 7 0
  audio_rms_z := List.replicate 7 0
  motion_score := List.replicate 7 0
  motion_score_z := List.replicate 7 0
  excitement := List.replicate 7 0
  scene_cuts := []
  fade_timestamps := []
  freeze_timestamps := []
  duration := 3
  step_sec := 1/2
  version := "v2.0.0"

/-- An anchor one second into the short video. -/
def shortAnchor : Anchor := ⟨1, 1, 0, 0, "excitement_peak"⟩

/-- C1 counterexample: on a 3-second video (shorter than the default
`min_clip_seconds = 5`), `select_windows` emits a window of duration 3,
violating `end_sec − start_sec ≥ min_clip_seconds`. -/
theorem select_windows_short_video_violation :
    select_windows [shortAnchor] [] shortFeatures DEFAULT_V2_CONFIG =
      [⟨0, 3, 1, 1, 0, 0, 1/5, 0, 1, 0, 0, "fallback_offset", "fallback_offset"⟩] ∧
    ¬ (DEFAULT_V2_CONFIG.min_clip_seconds ≤ (3 : ℚ) - 0) := by
  constructor
  · decide
  · decide

/-- A 10-second video at `step_sec = 0.5` with no activity. -/
def tenFeatures : ExtractedFeatures ℚ where
  times := (List.range 21).map (fun i => (i : ℚ) / 2)
  audio_rms := List.replicate 21 0
  audio_rms_z := List.replicate 21 0
  motion_score := List.replicate 21 0
  motion_score_z := List.replicate 21 0
  excitement := List.replicate 21 0
  scene_cuts := []
  fade_timestamps := []
  freeze_timestamps := []
  duration := 10
  step_sec := 1/2
  version := "v2.0.0"

/-- An anchor in the middle of the 10-second video. -/
def okAnchor : Anchor := ⟨5, 1, 0, 0, "excitement_peak"⟩

/-- The window `select_windows` produces for `okAnchor` on `tenFeatures`. -/
def okWindow : ClipWindow :=
  ⟨0, 10, 5, 1, 0, 0, 1/5, 0, 1, 0, 0, "fallback_offset", "fallback_offset"⟩

/-- C1 witness: the invariants instantiated at a concrete emitted window. -/
theorem select_windows_invariants_witness :
    okWindow.start_sec < okWindow.end_sec ∧
    DEFAULT_V2_CONFIG.min_clip_seconds ≤ okWindow.end_sec - okWindow.start_sec ∧
    okWindow.end_sec - okWindow.start_sec ≤ DEFAULT_V2_CONFIG.max_clip_seconds ∧
    okWindow.start_sec ≤ okWindow.anchor_time_sec ∧
    okWindow.anchor_time_sec ≤ okWindow.end_sec ∧
    0 ≤ okWindow.start_sec ∧ okWindow.end_sec ≤ tenFeatures.duration :=
  select_windows_invariants [okAnchor] [] tenFeatures DEFAULT_V2_CONFIG
    (by decide) (by decide) (by decide) (by decide) (by decide) (by decide)
    (by decide) (by decide) (by decide) okWindow (by decide)

/-- A 200-second video at `step_sec = 1` whose only boundary candidates
are at 10 s and 160 s, so the candidate region spanning the anchor at
100 s is 150 s long. -/
def wideFeatures : ExtractedFeatures ℚ where
  times := (List.range 201).map (fun i => (i : ℚ))
  audio_rms := List.replicate 201 0
  audio_rms_z := List.replicate 201 0
  motion_score := List.replicate 201 0
  motion_score_z := List.replicate 201 0
  excitement := List.replicate 201 0
  scene_cuts := [10, 160]
  fade_timestamps := []
  freeze_timestamps := []
  duration := 200
  step_sec := 1
  version := "v2.0.0"

/-- The anchor inside the 150-second candidate region. -/
def wideAnchor : Anchor := ⟨100, 1, 0, 0, "excitement_peak"⟩

/-- The two boundary candidates delimiting the 150-second region. -/
def wideBoundaries : List (BoundaryCandidate ℚ) :=
  [⟨10, 9/10, 1, 0, 0, 0⟩, ⟨160, 9/10, 1, 0, 0, 0⟩]

/-- C2 counterexample: on the spec's long-segment scenario (a 150-second
anchor-spanning candidate region with `max_clip_seconds = 60`), the
emitted window is NOT truncated to `max_clip_seconds` and its
`end_reason` is `"fallback_offset"`, not `"hard_cut_max_duration"`: the
end-selection step already capped the end, so the hard-cut branch never
ran. -/
theorem hard_cut_scenario_not_emitted :
    select_windows [wideAnchor] wideBoundaries wideFeatures DEFAULT_V2_CONFIG =
      [⟨92, 112, 100, 1, 0, 0, 1/5, 0, 1, 0, 0, "fallback_offset", "fallback_offset"⟩] ∧
    ("fallback_offset" : String) ≠ "hard_cut_max_duration" ∧
    (112 : ℚ) - 92 ≠ DEFAULT_V2_CONFIG.max_clip_seconds := by
  refine ⟨by decide, by decide, by decide⟩

/-- C2 witness: the no-hard-cut theorem instantiated at the long-segment
scenario's emitted window. -/
theorem select_windows_no_hard_cut_witness :
    (⟨92, 112, 100, 1, 0, 0, 1/5, 0, 1, 0, 0, "fallback_offset",
        "fallback_offset"⟩ : ClipWindow).end_reason ≠ "hard_cut_max_duration" ∧
    (⟨92, 112, 100, 1, 0, 0, 1/5, 0, 1, 0, 0, "fallback_offset",
        "fallback_offset"⟩ : ClipWindow).end_sec -
      (⟨92, 112, 100, 1, 0, 0, 1/5, 0, 1, 0, 0, "fallback_offset",
        "fallback_offset"⟩ : ClipWindow).start_sec ≤
      DEFAULT_V2_CONFIG.max_clip_seconds :=
  select_windows_no_hard_cut [wideAnchor] wideBoundaries wideFeatures DEFAULT_V2_CONFIG
    (by decide) _ (by decide)

/-! ### Anchor detection (`anchors.py`) -/

/-- A candidate local maximum `(time, value, index)` as collected by
`find_local_maxima`. -/
structure Peak where
  time : ℚ
  val : ℚ
  idx : ℕ
deriving DecidableEq, Repr

/-- The candidate-collection loop of `find_local_maxima`: indices
`i ∈ range(1, len(arr)-1)` whose value exceeds the threshold and equals
the max of the window `arr[max(0,i-m) : min(len(arr),i+m+1)]`. -/
def localMaximaRaw (arr times : List ℚ) (m : ℤ) (threshold : ℚ) : List Peak :=
  (List.range arr.length).filterMap (fun i =>
    if 1 ≤ i ∧ i + 1 < arr.length then
      if arr.getD i 0 ≤ threshold then none
      else
        if arr.getD i 0 = npMax (pySlice arr (max 0 ((i : ℤ) - m)) (min (arr.length : ℤ) ((i : ℤ) + m + 1))) then
          some ⟨times.getD i 0, arr.getD i 0, i⟩
        else none
    else none)

/-- The greedy non-max-suppression fold shared by `find_local_maxima`
(selection against `used_times`) and the cross-method skip in
`detect_anchors` (selection against `existing_times`): accept an item iff
no already-accepted item lies within `w` on the time axis. -/
def suppressFold {α β : Type} (keyA : β → ℚ) (keyM : α → ℚ) (mk : α → β) (w : ℚ)
    (l : List α) (init : List β) : List β :=
  l.foldl (fun acc m =>
    if acc.any (fun a => |keyM m - keyA a| < w) then acc else acc ++ [mk m]) init

/-- `find_local_maxima`: collect window maxima, sort by value descending
(stable), then greedy non-max suppression. -/
def find_local_maxima (arr times : List ℚ) (min_distance_sec step_sec : ℚ)
    (threshold : ℚ) : List Peak :=
  let sorted := List.insertionSort (fun a b : Peak => b.val ≤ a.val)
    (localMaximaRaw arr times (pyInt (min_distance_sec / step_sec)) threshold)
  suppressFold Peak.time Peak.time id min_distance_sec sorted []

/-- Detection round 1 of `detect_anchors`: excitement peaks. -/
def anchors_round1 (features : ExtractedFeatures ℚ) (config : V2PipelineConfig) : List Anchor :=
  (find_local_maxima features.excitement features.times
      config.anchor_suppression_window_sec features.step_sec
      config.anchor_excitement_threshold).map
    (fun p => Anchor.mk p.time p.val (features.audio_rms_z.getD p.idx 0)
      (features.motion_score_z.getD p.idx 0) "excitement_peak")

/-- Detection round 2: strong audio-only peaks (threshold 1.5, weight
0.7), first-come suppressed against the anchors accepted so far. -/
def anchors_round2 (features : ExtractedFeatures ℚ) (config : V2PipelineConfig) : List Anchor :=
  suppressFold Anchor.time_sec Peak.time
    (fun p => Anchor.mk p.time (p.val * 0.7) (features.audio_rms_z.getD p.idx 0)
      (features.motion_score_z.getD p.idx 0) "audio_peak")
    config.anchor_suppression_window_sec
    (find_local_maxima features.audio_rms_z features.times
      config.anchor_suppression_window_sec features.step_sec 1.5)
    (anchors_round1 features config)

/-- The scene-cut density signal of round 3:
`d[i] = Σ_{cuts with |t_i − cut| < 5} 1 / (1 + |t_i − cut|)`. -/
def cut_density (features : ExtractedFeatures ℚ) : List ℚ :=
  features.times.map (fun t =>
    (features.scene_cuts.map
      (fun cut => if |t - cut| < 5 then 1 / (1 + |t - cut|) else 0)).sum)

/-- Detection round 3: action sequences (motion z-score boosted by
cut density, threshold 1, weight 0.6), only when scene cuts exist. -/
def anchors_round3 (features : ExtractedFeatures ℚ) (config : V2PipelineConfig) : List Anchor :=
  if features.scene_cuts ≠ [] then
    suppressFold Anchor.time_sec Peak.time
      (fun p => Anchor.mk p.time (p.val * 0.6) (features.audio_rms_z.getD p.idx 0)
        (features.motion_score_z.getD p.idx 0) "action_sequence")
      config.anchor_suppression_window_sec
      (find_local_maxima
        (List.zipWith (fun mz dens => mz * (1 + dens * 0.5))
          features.motion_score_z (cut_density features))
        features.times config.anchor_suppression_window_sec features.step_sec 1)
      (anchors_round2 features config)
  else anchors_round2 features config

/-- The adaptive anchor cap
`max(10, min(int(duration/60 * max_anchors_per_minute), 2 * target))`. -/
def max_anchors (features : ExtractedFeatures ℚ) (config : V2PipelineConfig) : ℤ :=
  max 10 (min (pyInt (features.duration / 60 * config.max_anchors_per_minute))
    ((config.target_clip_count_soft : ℤ) * 2))

/-- `detect_anchors`: three detection rounds with cross-round first-come
suppression, then keep the top `max_anchors` by score and re-sort by time. -/
def detect_anchors (features : ExtractedFeatures ℚ) (config : V2PipelineConfig) : List Anchor :=
  List.insertionSort (fun a b : Anchor => a.time_sec ≤ b.time_sec)
    ((List.insertionSort (fun a b : Anchor => b.score ≤ a.score)
      (anchors_round3 features config)).take (max_anchors features config).toNat)

lemma suppressFold_pairwise {α β : Type} (keyA : β → ℚ) (keyM : α → ℚ) (mk : α → β)
    (hkey : ∀ m, keyA (mk m) = keyM m) (w : ℚ) (l : List α) (init : List β)
    (h : init.Pairwise (fun a b => w ≤ |keyA a - keyA b|)) :
    (suppressFold keyA keyM mk w l init).Pairwise (fun a b => w ≤ |keyA a - keyA b|) := by
  induction l generalizing init with
  | nil => exact h
  | cons m ms ih =>
    unfold suppressFold
    rw [List.foldl_cons]
    unfold suppressFold at ih
    split
    · exact ih init h
    · rename_i hany
      apply ih
      rw [List.pairwise_append]
      refine ⟨h, List.pairwise_singleton _ _, ?_⟩
      intro a ha b hb
      rw [List.mem_singleton] at hb
      subst hb
      have hfalse : (init.any fun a => decide (|keyM m - keyA a| < w)) = false := by
        simpa using hany
      have := List.any_eq_false.mp hfalse a ha
      rw [decide_eq_true_eq] at this
      push_neg at this
      rw [hkey m, abs_sub_comm]
      exact this

lemma find_local_maxima_pairwise (arr times : List ℚ) (mds ss th : ℚ) :
    (find_local_maxima arr times mds ss th).Pairwise
      (fun a b => mds ≤ |a.time - b.time|) := by
  unfold find_local_maxima
  exact suppressFold_pairwise Peak.time Peak.time id (fun _ => rfl) mds _ [] List.Pairwise.nil

/-- C6: all anchors returned by `detect_anchors` — in particular any two
with the same `reason` — are pairwise at least
`anchor_suppression_window_sec` apart on the time axis (within-method
non-max suppression plus first-come cross-method suppression), and the
returned list is sorted by `time_sec` ascending. -/
theorem detect_anchors_suppression_sorted (features : ExtractedFeatures ℚ)
    (config : V2PipelineConfig) :
    ((detect_anchors features config).Pairwise (fun a b =>
      a.reason = b.reason →
        config.anchor_suppression_window_sec ≤ |a.time_sec - b.time_sec|)) ∧
    ((detect_anchors features config).Pairwise (fun a b => a.time_sec ≤ b.time_sec)) := by
  have hsymm : ∀ {a b : Anchor},
      config.anchor_suppression_window_sec ≤ |a.time_sec - b.time_sec| →
      config.anchor_suppression_window_sec ≤ |b.time_sec - a.time_sec| := by
    intro a b hab
    rwa [abs_sub_comm]
  have h1 : (anchors_round1 features config).Pairwise
      (fun a b => config.anchor_suppression_window_sec ≤ |a.time_sec - b.time_sec|) := by
    unfold anchors_round1
    rw [List.pairwise_map]
    exact find_local_maxima_pairwise _ _ _ _ _
  have h2 : (anchors_round2 features config).Pairwise
      (fun a b => config.anchor_suppression_window_sec ≤ |a.time_sec - b.time_sec|) := by
    unfold anchors_round2
    exact suppressFold_pairwise Anchor.time_sec Peak.time
      (fun p => Anchor.mk p.time (p.val * 0.7) (features.audio_rms_z.getD p.idx 0)
        (features.motion_score_z.getD p.idx 0) "audio_peak")
      (fun _ => rfl) config.anchor_suppression_window_sec
      (find_local_maxima features.audio_rms_z features.times
        config.anchor_suppression_window_sec features.step_sec 1.5)
      (anchors_round1 features config) h1
  have h3 : (anchors_round3 features config).Pairwise
      (fun a b => config.anchor_suppression_window_sec ≤ |a.time_sec - b.time_sec|) := by
    unfold anchors_round3
    split
    · exact suppressFold_pairwise Anchor.time_sec Peak.time
        (fun p => Anchor.mk p.time (p.val * 0.6) (features.audio_rms_z.getD p.idx 0)
          (features.motion_score_z.getD p.idx 0) "action_sequence")
        (fun _ => rfl) config.anchor_suppression_window_sec
        (find_local_maxima
          (List.zipWith (fun mz dens => mz * (1 + dens * 0.5))
            features.motion_score_z (cut_density features))
          features.times config.anchor_suppression_window_sec features.step_sec 1)
        (anchors_round2 features config) h2
    · exact h2
  have key : (detect_anchors features config).Pairwise (fun a b =>
      config.anchor_suppression_window_sec ≤ |a.time_sec - b.time_sec|) := by
    unfold detect_anchors
    have hp1 := ((List.perm_insertionSort (fun a b : Anchor => b.score ≤ a.score)
      (anchors_round3 features config)).pairwise_iff (fun h => hsymm h)).mpr h3
    have hp2 := hp1.sublist (List.take_sublist (max_anchors features config).toNat
      (List.insertionSort (fun a b : Anchor => b.score ≤ a.score)
        (anchors_round3 features config)))
    exact ((List.perm_insertionSort (fun a b : Anchor => a.time_sec ≤ b.time_sec)
      _).pairwise_iff (fun h => hsymm h)).mpr hp2
  constructor
  · exact key.imp (fun {a b} h => fun _ => h)
  · unfold detect_anchors
    haveI : IsTotal Anchor (fun a b : Anchor => a.time_sec ≤ b.time_sec) :=
      ⟨fun a b => le_total _ _⟩
    haveI : IsTrans Anchor (fun a b : Anchor => a.time_sec ≤ b.time_sec) :=
      ⟨fun _ _ _ hab hbc => le_trans hab hbc⟩
    exact List.sorted_insertionSort _ _

/-! ### Post filters (`post_filters.py`) -/

/-- `FilterDecision` from `post_filters.py`.  The `reason` strings are
kept without their interpolated numeric values. -/
structure FilterDecision where
  clip_index : ℕ
  action : String
  reason : String
  related_clip_index : Option ℕ
deriving DecidableEq, Repr

/-- `compute_iou`: 1-D interval intersection over union. -/
def compute_iou (window1 window2 : ClipWindow) : ℚ :=
  let s := max window1.start_sec window2.start_sec
  let e := min window1.end_sec window2.end_sec
  let intersection := max 0 (e - s)
  let union := (window1.duration + window2.duration) - intersection
  if union ≤ 0 then 0 else intersection / union

/-- One iteration of the greedy loop in `resolve_overlaps`: drop the
window if some already-kept window overlaps it with IoU strictly above
the threshold (Python breaks at the first such kept window). -/
def overlap_step (windows : List ClipWindow) (config : V2PipelineConfig)
    (acc : List ClipWindow × List FilterDecision) (w : ClipWindow) :
    List ClipWindow × List FilterDecision :=
  let original_idx := windows.indexOf w
  match acc.1.find? (fun k => decide (config.overlap_iou_threshold < compute_iou w k)) with
  | some k => (acc.1, acc.2 ++
      [⟨original_idx, "drop_overlap", "IoU above threshold", some (windows.indexOf k)⟩])
  | none => (acc.1 ++ [w], acc.2 ++
      [⟨original_idx, "keep", "Passed overlap check", none⟩])

/-- `resolve_overlaps`: sort by quality descending (stable) and keep a
window iff it does not overlap any already-kept window above the IoU
threshold. -/
def resolve_overlaps (windows : List ClipWindow) (config : V2PipelineConfig) :
    List ClipWindow × List FilterDecision :=
  if windows = [] then ([], [])
  else
    (List.insertionSort (fun a b : ClipWindow => b.quality_score ≤ a.quality_score)
      windows).foldl (overlap_step windows config) ([], [])

/-- One iteration of `filter_boring` over `(index, window)` pairs. -/
def boring_step (features : ExtractedFeatures ℚ) (config : V2PipelineConfig)
    (acc : List ClipWindow × List FilterDecision) (iw : ℕ × ClipWindow) :
    List ClipWindow × List FilterDecision :=
  let i := iw.1
  let w := iw.2
  let start_idx := max 0 (pyInt (w.start_sec / features.step_sec))
  let end_idx := min (features.excitement.length : ℤ) (pyInt (w.end_sec / features.step_sec) + 1)
  if end_idx ≤ start_idx then
    (acc.1 ++ [w], acc.2 ++ [⟨i, "keep", "No excitement data", none⟩])
  else
    let window_excitement := pySlice features.excitement start_idx end_idx
    let avg := window_excitement.sum / (window_excitement.length : ℚ)
    let low_frac := ((window_excitement.filter
      (fun x => decide (x < config.boring_threshold))).length : ℚ) /
      (window_excitement.length : ℚ)
    if decide (avg < config.boring_threshold) &&
        decide (config.boring_duration_frac < low_frac) &&
        decide (w.anchor_score < 1/2) then
      (acc.1, acc.2 ++ [⟨i, "drop_boring", "Low average excitement", none⟩])
    else
      (acc.1 ++ [w], acc.2 ++ [⟨i, "keep", "Passed boring filter", none⟩])

/-- `filter_boring`: drop windows whose excitement is low on average,
mostly below threshold, and whose anchor score is below 0.5. -/
def filter_boring (windows : List ClipWindow) (features : ExtractedFeatures ℚ)
    (config : V2PipelineConfig) : List ClipWindow × List FilterDecision :=
  windows.enum.foldl (boring_step features config) ([], [])

/-- The per-window perceptual hash used by `deduplicate_clips`:
`simple_frame_hash` of the clip's midpoint frame, supplied here by the
host as `frameHash` (the Decoder call); Python's truthiness check drops
empty strings as well as `None`. -/
def midHash (frameHash : ℚ → Option String) (w : ClipWindow) : Option String :=
  match frameHash ((w.start_sec + w.end_sec) / 2) with
  | some h => if h = "" then none else some h
  | none => none

/-- One iteration of the dedup loop over `(orig_idx, window)` pairs
sorted by start time.  State: kept original indices (in first-come
order; Python iterates a `set` for membership/first-match only) and the
`dropped → kept` mapping. -/
def dedup_step (windows : List ClipWindow) (frameHash : ℚ → Option String)
    (st : List ℕ × List (ℕ × ℕ)) (ow : ℕ × ClipWindow) : List ℕ × List (ℕ × ℕ) :=
  let orig_idx := ow.1
  let w := ow.2
  if (st.2.lookup orig_idx).isSome then st
  else
    match st.1.find? (fun kept_idx =>
      match windows.get? kept_idx with
      | none => false
      | some kw =>
        decide (|w.start_sec - kw.start_sec| ≤ 30) &&
        (match (windows.get? orig_idx).bind (midHash frameHash),
               (windows.get? kept_idx).bind (midHash frameHash) with
         | some h1, some h2 => h1 = h2 && decide (w.quality_score < kw.quality_score)
         | _, _ => false)) with
    | some kept_idx => (st.1, st.2 ++ [(orig_idx, kept_idx)])
    | none => (st.1 ++ [orig_idx], st.2)

/-- `deduplicate_clips`: in start-time order, a later window is dropped
iff a kept window within 30 s has an identical mid-frame hash and a
strictly higher quality score.  The kept list
`[windows[i] for i in sorted(kept_indices)]` is expressed as the
equivalent filter of `windows.enum` (the kept indices are distinct and
valid). -/
def deduplicate_clips (windows : List ClipWindow) (frameHash : ℚ → Option String)
    (config : V2PipelineConfig) : List ClipWindow × List FilterDecision :=
  if windows.length < 2 then
    (windows, windows.map (fun _ => ⟨0, "keep", "Single clip", none⟩))
  else
    let windows_with_idx := List.insertionSort
      (fun a b : ℕ × ClipWindow => a.2.start_sec ≤ b.2.start_sec) windows.enum
    let st := windows_with_idx.foldl (dedup_step windows frameHash) ([], [])
    let kept := (windows.enum.filter (fun p => st.1.contains p.1)).map Prod.snd
    let decisions := (List.range windows.length).filterMap (fun i =>
      if st.1.contains i then
        some (FilterDecision.mk i "keep" "Unique clip" none)
      else
        match st.2.lookup i with
        | some k => some (FilterDecision.mk i "drop_duplicate"
            "Duplicate of earlier clip" (some k))
        | none => none)
    (kept, decisions)

/-- `filter_by_quality_target`: keep everything when at or below the
soft target, otherwise the top `target_clip_count_soft` by quality. -/
def filter_by_quality_target (windows : List ClipWindow) (config : V2PipelineConfig) :
    List ClipWindow × List FilterDecision :=
  if windows.length ≤ config.target_clip_count_soft then
    (windows, (List.range windows.length).map
      (fun i => ⟨i, "keep", "Under target count", none⟩))
  else
    let kept := (List.insertionSort
      (fun a b : ClipWindow => b.quality_score ≤ a.quality_score) windows).take
      config.target_clip_count_soft
    let decisions := windows.map (fun w =>
      if w ∈ kept then
        FilterDecision.mk (windows.indexOf w) "keep" "Above quality cutoff" none
      else
        FilterDecision.mk (windows.indexOf w) "drop_quality" "Below quality cutoff" none)
    (kept, decisions)

/-- The `all_decisions` report of `apply_post_filters`, one entry per pass. -/
structure FilterReport where
  overlap : List FilterDecision
  boring : List FilterDecision
  duplicate : List FilterDecision
  quality : List FilterDecision
deriving DecidableEq, Repr

/-- `apply_post_filters`: overlap resolution, boring filter, dedup,
quality cap, then re-sort by start time. -/
def apply_post_filters (windows : List ClipWindow) (features : ExtractedFeatures ℚ)
    (frameHash : ℚ → Option String) (config : V2PipelineConfig) :
    List ClipWindow × FilterReport :=
  let r1 := resolve_overlaps windows config
  let r2 := filter_boring r1.1 features config
  let r3 := deduplicate_clips r2.1 frameHash config
  let r4 := filter_by_quality_target r3.1 config
  (List.insertionSort (fun a b : ClipWindow => a.start_sec ≤ b.start_sec) r4.1,
   ⟨r1.2, r2.2, r3.2, r4.2⟩)

/-! ### The pairwise-IoU invariant through the filter pipeline -/

lemma compute_iou_comm (w1 w2 : ClipWindow) : compute_iou w1 w2 = compute_iou w2 w1 := by
  unfold compute_iou
  rw [max_comm w1.start_sec w2.start_sec, min_comm w1.end_sec w2.end_sec,
    add_comm w1.duration w2.duration]

lemma foldl_preserve {α σ : Type} (f : σ → α → σ) (P : σ → Prop)
    (hf : ∀ s a, P s → P (f s a)) : ∀ (l : List α) (s : σ), P s → P (l.foldl f s) := by
  intro l
  induction l with
  | nil => exact fun s h => h
  | cons x xs ih => exact fun s h => ih _ (hf s x h)

lemma overlap_step_pairwise (windows : List ClipWindow) (config : V2PipelineConfig)
    (acc : List ClipWindow × List FilterDecision) (w : ClipWindow)
    (h : acc.1.Pairwise (fun a b => compute_iou a b ≤ config.overlap_iou_threshold)) :
    (overlap_step windows config acc w).1.Pairwise
      (fun a b => compute_iou a b ≤ config.overlap_iou_threshold) := by
  unfold overlap_step
  dsimp only
  split
  · exact h
  · rename_i hfind
    rw [List.pairwise_append]
    refine ⟨h, List.pairwise_singleton _ _, ?_⟩
    intro a ha b hb
    rw [List.mem_singleton] at hb
    subst hb
    have := List.find?_eq_none.mp hfind a ha
    rw [decide_eq_true_eq] at this
    push_neg at this
    rwa [compute_iou_comm]

lemma resolve_overlaps_pairwise (windows : List ClipWindow) (config : V2PipelineConfig) :
    (resolve_overlaps windows config).1.Pairwise
      (fun a b => compute_iou a b ≤ config.overlap_iou_threshold) := by
  unfold resolve_overlaps
  split
  · exact List.Pairwise.nil
  · exact foldl_preserve (overlap_step windows config)
      (fun s => s.1.Pairwise (fun a b => compute_iou a b ≤ config.overlap_iou_threshold))
      (fun s a hs => overlap_step_pairwise windows config s a hs) _ ([], [])
      List.Pairwise.nil

lemma foldl_step_sublist {α γ σ : Type} (g : α → γ)
    (step : (List γ × σ) → α → (List γ × σ))
    (hstep : ∀ acc x, (step acc x).1 = acc.1 ∨ (step acc x).1 = acc.1 ++ [g x]) :
    ∀ (l : List α) (acc : List γ × σ), (l.foldl step acc).1.Sublist (acc.1 ++ l.map g) := by
  intro l
  induction l with
  | nil => intro acc; simpa using List.Sublist.refl acc.1
  | cons x xs ih =>
    intro acc
    rw [List.foldl_cons]
    have h1 := ih (step acc x)
    rcases hstep acc x with h2 | h2 <;> rw [h2] at h1
    · refine h1.trans (List.Sublist.append_left ?_ acc.1)
      exact List.sublist_cons_self (g x) (xs.map g)
    · refine h1.trans ?_
      rw [List.append_assoc]
      exact List.Sublist.refl _

lemma boring_step_shape (features : ExtractedFeatures ℚ) (config : V2PipelineConfig)
    (acc : List ClipWindow × List FilterDecision) (iw : ℕ × ClipWindow) :
    (boring_step features config acc iw).1 = acc.1 ∨
    (boring_step features config acc iw).1 = acc.1 ++ [iw.2] := by
  unfold boring_step
  dsimp only
  split
  · exact Or.inr rfl
  · split
    · exact Or.inl rfl
    · exact Or.inr rfl

lemma filter_boring_sublist (windows : List ClipWindow) (features : ExtractedFeatures ℚ)
    (config : V2PipelineConfig) :
    (filter_boring windows features config).1.Sublist windows := by
  unfold filter_boring
  have := foldl_step_sublist Prod.snd (boring_step features config)
    (boring_step_shape features config) windows.enum ([], [])
  simpa [List.enum_map_snd] using this

lemma deduplicate_clips_sublist (windows : List ClipWindow)
    (frameHash : ℚ → Option String) (config : V2PipelineConfig) :
    (deduplicate_clips windows frameHash config).1.Sublist windows := by
  unfold deduplicate_clips
  split
  · exact List.Sublist.refl _
  · dsimp only
    have h1 : ((windows.enum.filter (fun p =>
        ((List.insertionSort (fun a b : ℕ × ClipWindow => a.2.start_sec ≤ b.2.start_sec)
          windows.enum).foldl (dedup_step windows frameHash) ([], [])).1.contains p.1)).map
        Prod.snd).Sublist (windows.enum.map Prod.snd) :=
      List.Sublist.map Prod.snd (List.filter_sublist _)
    rwa [List.enum_map_snd] at h1

lemma filter_by_quality_target_subperm (windows : List ClipWindow)
    (config : V2PipelineConfig) :
    (filter_by_quality_target windows config).1.Subperm windows := by
  unfold filter_by_quality_target
  split
  · exact (List.Sublist.refl windows).subperm
  · dsimp only
    refine List.Subperm.trans ?_
      (List.perm_insertionSort
        (fun a b : ClipWindow => b.quality_score ≤ a.quality_score) windows).subperm
    exact (List.take_sublist _ _).subperm

/-- C8: after all four post-filter passes (overlap, boring, duplicate,
quality cap) and the final re-sort, every pair of distinct final clips
has 1-D interval IoU at most `overlap_iou_threshold`: the overlap pass
establishes the property and the other passes only remove windows. -/
theorem apply_post_filters_iou_bounded (windows : List ClipWindow)
    (features : ExtractedFeatures ℚ) (frameHash : ℚ → Option String)
    (config : V2PipelineConfig) :
    (apply_post_filters windows features frameHash config).1.Pairwise
      (fun a b => compute_iou a b ≤ config.overlap_iou_threshold) := by
  have hsymm : ∀ {a b : ClipWindow},
      compute_iou a b ≤ config.overlap_iou_threshold →
      compute_iou b a ≤ config.overlap_iou_threshold := by
    intro a b h
    rwa [compute_iou_comm]
  unfold apply_post_filters
  dsimp only
  have p1 := resolve_overlaps_pairwise windows config
  have p2 := p1.sublist (filter_boring_sublist (resolve_overlaps windows config).1
    features config)
  have p3 := p2.sublist (deduplicate_clips_sublist
    (filter_boring (resolve_overlaps windows config).1 features config).1 frameHash config)
  obtain ⟨l, hperm, hsub⟩ := filter_by_quality_target_subperm
    (deduplicate_clips (filter_boring (resolve_overlaps windows config).1
      features config).1 frameHash config).1 config
  have p4 : (filter_by_quality_target
      (deduplicate_clips (filter_boring (resolve_overlaps windows config).1
        features config).1 frameHash config).1 config).1.Pairwise
      (fun a b => compute_iou a b ≤ config.overlap_iou_threshold) :=
    (hperm.pairwise_iff (fun h => hsymm h)).mp (p3.sublist hsub)
  exact ((List.perm_insertionSort (fun a b : ClipWindow => a.start_sec ≤ b.start_sec)
    _).pairwise_iff (fun h => hsymm h)).mpr p4

/-! ### Boundary scoring (`compute_boundary_scores` in `boundaries.py`),
over `ℝ` because it uses `exp`. -/

/-- Python `int(x)` for a real: truncation toward zero. -/
noncomputable def pyIntR (x : ℝ) : ℤ := if 0 ≤ x then ⌊x⌋ else ⌈x⌉

/-- `np.max` of a real array; only applied to nonempty arrays. -/
noncomputable def npMaxR : List ℝ → ℝ
  | [] => 0
  | x :: xs => xs.foldl max x

/-- `np.min` of a real array; only applied to nonempty arrays. -/
noncomputable def npMinR : List ℝ → ℝ
  | [] => 0
  | x :: xs => xs.foldl min x

/-- `compute_scene_proximity_scores`: pointwise max over cuts of
`exp(−|t − cut| / decay)`. -/
noncomputable def compute_scene_proximity_scores (times : List ℝ) (scene_cuts : List ℝ)
    (decay_sec : ℝ) : List ℝ :=
  scene_cuts.foldl (fun scores cut =>
    List.zipWith max scores (times.map (fun t => Real.exp (-|t - cut| / decay_sec))))
    (times.map (fun _ => (0 : ℝ)))

/-- `compute_fade_proximity_scores` (same computation on fades). -/
noncomputable def compute_fade_proximity_scores (times : List ℝ) (fade_timestamps : List ℝ)
    (decay_sec : ℝ) : List ℝ :=
  fade_timestamps.foldl (fun scores fade_time =>
    List.zipWith max scores (times.map (fun t => Real.exp (-|t - fade_time| / decay_sec))))
    (times.map (fun _ => (0 : ℝ)))

/-- `find_valleys`: local minima with a wider-window check; strength is
the negative part of the (z-scored) value.  Returns
`(time, strength, index)` triples. -/
noncomputable def find_valleys (arr times : List ℝ) (step_sec : ℝ)
    (min_spacing_sec : ℝ) : List (ℝ × ℝ × ℕ) :=
  let m := max 1 (pyIntR (min_spacing_sec / step_sec))
  (List.range arr.length).filterMap (fun i =>
    if 1 ≤ i ∧ i + 1 < arr.length then
      if arr.getD i 0 < arr.getD (i - 1) 0 ∧ arr.getD i 0 < arr.getD (i + 1) 0 then
        if arr.getD i 0 = npMinR (pySlice arr (max 0 ((i : ℤ) - m))
            (min (arr.length : ℤ) ((i : ℤ) + m + 1))) then
          some (times.getD i 0, if arr.getD i 0 < 0 then -(arr.getD i 0) else 0, i)
        else none
      else none
    else none)

/-- The valley-spreading loops of `compute_boundary_scores`: each valley
spreads `strength · exp(−|t − v|/0.3)` into a 1-second radius, taking the
pointwise max across valleys. -/
noncomputable def spread_valleys (times : List ℝ) (valleys : List (ℝ × ℝ × ℕ)) : List ℝ :=
  valleys.foldl (fun scores v =>
    List.zipWith (fun s t =>
      if |t - v.1| < 1 then max s (v.2.1 * Real.exp (-|t - v.1| / 0.3)) else s)
      scores times)
    (times.map (fun _ => (0 : ℝ)))

/-- The local `normalize` helper: divide by the max when it is positive. -/
noncomputable def normalizeArr (arr : List ℝ) : List ℝ :=
  if 0 < npMaxR arr then arr.map (fun x => x / npMaxR arr) else arr

/-- The spacing-penalty loop: each index is penalized by
`0.3 · (1 − dist/min_spacing)` for every strictly higher-scoring neighbor
within `min_spacing` seconds. -/
noncomputable def spacing_penalty (times combined : List ℝ)
    (min_spacing step_sec : ℝ) : List ℝ :=
  let m := pyIntR (min_spacing / step_sec)
  (List.range times.length).map (fun (i : ℕ) =>
    (((List.range' (max 0 ((i : ℤ) - m)).toNat
        ((min (times.length : ℤ) ((i : ℤ) + m + 1)) - max 0 ((i : ℤ) - m)).toNat).filter
      (fun (j : ℕ) => j ≠ i))).foldl
      (fun acc j =>
        if combined.getD i 0 < combined.getD j 0 then
          if |times.getD i 0 - times.getD j 0| < min_spacing then
            acc + 0.3 * (1 - |times.getD i 0 - times.getD j 0| / min_spacing)
          else acc
        else acc) 0)

/-- The `scene_scores` local of `compute_boundary_scores`. -/
noncomputable def boundary_scene_scores (features : ExtractedFeatures ℝ) : List ℝ :=
  normalizeArr (compute_scene_proximity_scores features.times features.scene_cuts 0.5)

/-- The `fade_scores` local of `compute_boundary_scores`. -/
noncomputable def boundary_fade_scores (features : ExtractedFeatures ℝ) : List ℝ :=
  normalizeArr (compute_fade_proximity_scores features.times features.fade_timestamps 0.5)

/-- The `audio_valley_scores` local of `compute_boundary_scores`. -/
noncomputable def boundary_audio_valley_scores (features : ExtractedFeatures ℝ)
    (config : V2PipelineConfig) : List ℝ :=
  normalizeArr (spread_valleys features.times
    (find_valleys features.audio_rms_z features.times features.step_sec
      (config.boundary_min_spacing_sec : ℝ)))

/-- The `motion_valley_scores` local of `compute_boundary_scores`. -/
noncomputable def boundary_motion_valley_scores (features : ExtractedFeatures ℝ)
    (config : V2PipelineConfig) : List ℝ :=
  normalizeArr (spread_valleys features.times
    (find_valleys features.motion_score_z features.times features.step_sec
      (config.boundary_min_spacing_sec : ℝ)))

/-- The `combined_scores` local of `compute_boundary_scores`. -/
noncomputable def boundary_combined (features : ExtractedFeatures ℝ)
    (config : V2PipelineConfig) : List ℝ :=
  (List.range features.times.length).map (fun i =>
    (config.boundary_w_scene : ℝ) * (boundary_scene_scores features).getD i 0 +
    (config.boundary_w_audio_dip : ℝ) * (boundary_audio_valley_scores features config).getD i 0 +
    (config.boundary_w_fade : ℝ) * (boundary_fade_scores features).getD i 0 +
    (config.boundary_w_motion_valley : ℝ) *
      (boundary_motion_valley_scores features config).getD i 0)

/-- The `final_scores` local of `compute_boundary_scores`: combined minus
spacing penalty, floored at 0. -/
noncomputable def boundary_final (features : ExtractedFeatures ℝ)
    (config : V2PipelineConfig) : List ℝ :=
  (List.range features.times.length).map (fun i =>
    max 0 ((boundary_combined features config).getD i 0 -
      (spacing_penalty features.times (boundary_combined features config)
        (config.boundary_min_spacing_sec : ℝ) features.step_sec).getD i 0))

/-- `compute_boundary_scores`: normalized per-signal components, weighted
combination, spacing penalty, floor at 0, threshold filter. -/
noncomputable def compute_boundary_scores (features : ExtractedFeatures ℝ)
    (config : V2PipelineConfig) : List (BoundaryCandidate ℝ) :=
  (List.range features.times.length).filterMap (fun i =>
    if (config.boundary_candidate_threshold : ℝ) ≤ (boundary_final features config).getD i 0 then
      some ⟨features.times.getD i 0, (boundary_final features config).getD i 0,
        (boundary_scene_scores features).getD i 0,
        (boundary_audio_valley_scores features config).getD i 0,
        (boundary_fade_scores features).getD i 0,
        (boundary_motion_valley_scores features config).getD i 0⟩
    else none)

/-! ### Bounds on the boundary components and scores -/

lemma mem_zipWith {α β γ : Type} {f : α → β → γ} :
    ∀ {l1 : List α} {l2 : List β} {x : γ}, x ∈ List.zipWith f l1 l2 →
      ∃ a ∈ l1, ∃ b ∈ l2, x = f a b := by
  intro l1
  induction l1 with
  | nil => intro l2 x h; simp at h
  | cons a as ih =>
    intro l2 x h
    cases l2 with
    | nil => simp at h
    | cons b bs =>
      rw [List.zipWith_cons_cons] at h
      rcases List.mem_cons.mp h with h | h
      · exact ⟨a, List.mem_cons_self a as, b, List.mem_cons_self b bs, h⟩
      · obtain ⟨a', ha', b', hb', hx⟩ := ih h
        exact ⟨a', List.mem_cons_of_mem _ ha', b', List.mem_cons_of_mem _ hb', hx⟩

lemma le_foldl_max : ∀ (l : List ℝ) (a b : ℝ), b = a ∨ b ∈ l → b ≤ l.foldl max a := by
  intro l
  induction l with
  | nil =>
    intro a b h
    rcases h with h | h
    · exact h.le
    · simp at h
  | cons x xs ih =>
    intro a b h
    rw [List.foldl_cons]
    have hseed : max a x ≤ xs.foldl max (max a x) := ih (max a x) (max a x) (Or.inl rfl)
    rcases h with h | h
    · exact le_trans (h.le.trans (le_max_left a x)) hseed
    · rcases List.mem_cons.mp h with h | h
      · exact le_trans (h.le.trans (le_max_right a x)) hseed
      · exact ih (max a x) b (Or.inr h)

lemma le_npMaxR {l : List ℝ} {y : ℝ} (hy : y ∈ l) : y ≤ npMaxR l := by
  cases l with
  | nil => simp at hy
  | cons x xs =>
    unfold npMaxR
    rcases List.mem_cons.mp hy with h | h
    · exact le_foldl_max xs x y (Or.inl h)
    · exact le_foldl_max xs x y (Or.inr h)

lemma getD_prop {l : List ℝ} {P : ℝ → Prop} (h : ∀ x ∈ l, P x) (h0 : P 0) (i : ℕ) :
    P (l.getD i 0) := by
  rcases lt_or_le i l.length with hi | hi
  · rw [List.getD_eq_getElem l 0 hi]
    exact h _ (List.getElem_mem hi)
  · rw [List.getD_eq_default l 0 hi]
    exact h0

lemma proximity_nonneg (times events : List ℝ) (decay : ℝ) :
    ∀ x ∈ compute_scene_proximity_scores times events decay, 0 ≤ x := by
  unfold compute_scene_proximity_scores
  apply foldl_preserve
    (P := fun scores : List ℝ => ∀ x ∈ scores, 0 ≤ x)
  · intro scores cut hs x hx
    obtain ⟨a, ha, b, _, rfl⟩ := mem_zipWith hx
    exact le_trans (hs a ha) (le_max_left a b)
  · intro x hx
    obtain ⟨_, _, rfl⟩ := List.mem_map.mp hx
    exact le_refl 0

lemma fade_eq_scene : compute_fade_proximity_scores = compute_scene_proximity_scores := rfl

lemma spread_valleys_nonneg (times : List ℝ) (valleys : List (ℝ × ℝ × ℕ)) :
    ∀ x ∈ spread_valleys times valleys, 0 ≤ x := by
  unfold spread_valleys
  apply foldl_preserve
    (P := fun scores : List ℝ => ∀ x ∈ scores, 0 ≤ x)
  · intro scores v hs x hx
    obtain ⟨a, ha, b, _, rfl⟩ := mem_zipWith hx
    split
    · exact le_trans (hs a ha) (le_max_left _ _)
    · exact hs a ha
  · intro x hx
    obtain ⟨_, _, rfl⟩ := List.mem_map.mp hx
    exact le_refl 0

lemma normalizeArr_bounds {arr : List ℝ} (h : ∀ x ∈ arr, 0 ≤ x) :
    ∀ x ∈ normalizeArr arr, 0 ≤ x ∧ x ≤ 1 := by
  unfold normalizeArr
  split
  · rename_i hmax
    intro x hx
    obtain ⟨y, hy, rfl⟩ := List.mem_map.mp hx
    refine ⟨div_nonneg (h y hy) hmax.le, ?_⟩
    rw [div_le_one hmax]
    exact le_npMaxR hy
  · rename_i hmax
    intro x hx
    push_neg at hmax
    exact ⟨h x hx, by linarith [le_npMaxR hx]⟩

lemma spacing_penalty_nonneg (times combined : List ℝ) (sp st : ℝ) :
    ∀ x ∈ spacing_penalty times combined sp st, 0 ≤ x := by
  unfold spacing_penalty
  intro x hx
  obtain ⟨i, _, rfl⟩ := List.mem_map.mp hx
  apply foldl_preserve (P := fun acc : ℝ => 0 ≤ acc)
  · intro acc j hacc
    split
    · split
      · rename_i hlt hdist
        have hd0 : (0 : ℝ) ≤ |times.getD i 0 - times.getD j 0| := abs_nonneg _
        have hsp : (0 : ℝ) < sp := lt_of_le_of_lt hd0 hdist
        have hq : |times.getD i 0 - times.getD j 0| / sp < 1 := (div_lt_one hsp).mpr hdist
        nlinarith
      · exact hacc
    · exact hacc
  · exact le_refl 0

lemma getD_map_range (n : ℕ) (f : ℕ → ℝ) (i : ℕ) (hi : i < n) :
    ((List.range n).map f).getD i 0 = f i := by
  rw [List.getD_eq_getElem _ 0 (by simpa using hi)]
  simp

/-- C7 (amended): every `BoundaryCandidate` has all four component
strengths in `[0, 1]` (true for every configuration), and its `score` in
`[0, 1]` provided the four boundary weights are nonnegative and sum to at
most 1 — which the default configuration's `0.45 + 0.25 + 0.15 + 0.15 = 1`
satisfies. -/
theorem compute_boundary_scores_bounds (features : ExtractedFeatures ℝ)
    (config : V2PipelineConfig)
    (hw1 : 0 ≤ config.boundary_w_scene) (hw2 : 0 ≤ config.boundary_w_audio_dip)
    (hw3 : 0 ≤ config.boundary_w_fade) (hw4 : 0 ≤ config.boundary_w_motion_valley)
    (hsum : config.boundary_w_scene + config.boundary_w_audio_dip +
      config.boundary_w_fade + config.boundary_w_motion_valley ≤ 1) :
    ∀ b ∈ compute_boundary_scores features config,
      (0 ≤ b.score ∧ b.score ≤ 1) ∧
      (0 ≤ b.scene_strength ∧ b.scene_strength ≤ 1) ∧
      (0 ≤ b.audio_dip_strength ∧ b.audio_dip_strength ≤ 1) ∧
      (0 ≤ b.fade_strength ∧ b.fade_strength ≤ 1) ∧
      (0 ≤ b.motion_valley_strength ∧ b.motion_valley_strength ≤ 1) := by
  intro b hb
  have hscene : ∀ x ∈ boundary_scene_scores features, 0 ≤ x ∧ x ≤ 1 :=
    normalizeArr_bounds (proximity_nonneg features.times features.scene_cuts 0.5)
  have hfade : ∀ x ∈ boundary_fade_scores features, 0 ≤ x ∧ x ≤ 1 := by
    unfold boundary_fade_scores
    rw [fade_eq_scene]
    exact normalizeArr_bounds (proximity_nonneg features.times features.fade_timestamps 0.5)
  have haud : ∀ x ∈ boundary_audio_valley_scores features config, 0 ≤ x ∧ x ≤ 1 :=
    normalizeArr_bounds (spread_valleys_nonneg features.times
      (find_valleys features.audio_rms_z features.times features.step_sec
        (config.boundary_min_spacing_sec : ℝ)))
  have hmot : ∀ x ∈ boundary_motion_valley_scores features config, 0 ≤ x ∧ x ≤ 1 :=
    normalizeArr_bounds (spread_valleys_nonneg features.times
      (find_valleys features.motion_score_z features.times features.step_sec
        (config.boundary_min_spacing_sec : ℝ)))
  unfold compute_boundary_scores at hb
  obtain ⟨i, hi, hsome⟩ := List.mem_filterMap.mp hb
  rw [List.mem_range] at hi
  split at hsome
  · rw [Option.some.injEq] at hsome
    subst hsome
    dsimp only
    have hsceneD := getD_prop hscene ⟨le_refl 0, zero_le_one⟩ i
    have hfadeD := getD_prop hfade ⟨le_refl 0, zero_le_one⟩ i
    have haudD := getD_prop haud ⟨le_refl 0, zero_le_one⟩ i
    have hmotD := getD_prop hmot ⟨le_refl 0, zero_le_one⟩ i
    refine ⟨?_, hsceneD, haudD, hfadeD, hmotD⟩
    unfold boundary_final
    rw [getD_map_range _ _ i hi]
    constructor
    · exact le_max_left 0 _
    · refine max_le zero_le_one ?_
      have hcomb : (boundary_combined features config).getD i 0 ≤ 1 := by
        unfold boundary_combined
        rw [getD_map_range _ _ i hi]
        have hw1' : (0 : ℝ) ≤ (config.boundary_w_scene : ℝ) := by exact_mod_cast hw1
        have hw2' : (0 : ℝ) ≤ (config.boundary_w_audio_dip : ℝ) := by exact_mod_cast hw2
        have hw3' : (0 : ℝ) ≤ (config.boundary_w_fade : ℝ) := by exact_mod_cast hw3
        have hw4' : (0 : ℝ) ≤ (config.boundary_w_motion_valley : ℝ) := by exact_mod_cast hw4
        have hsum' : (config.boundary_w_scene : ℝ) + (config.boundary_w_audio_dip : ℝ) +
            (config.boundary_w_fade : ℝ) + (config.boundary_w_motion_valley : ℝ) ≤ 1 := by
          exact_mod_cast hsum
        nlinarith [hsceneD.1, hsceneD.2, haudD.1, haudD.2, hfadeD.1, hfadeD.2,
          hmotD.1, hmotD.2]
      have hpen : 0 ≤ (spacing_penalty features.times (boundary_combined features config)
          (config.boundary_min_spacing_sec : ℝ) features.step_sec).getD i 0 :=
        getD_prop (spacing_penalty_nonneg features.times (boundary_combined features config)
          (config.boundary_min_spacing_sec : ℝ) features.step_sec) (le_refl 0) i
      linarith
  · cases hsome

/-! ### A one-sample boundary-scoring scenario, evaluated exactly -/

/-- One time sample at 0, one scene cut at 0.5, no other activity. -/
noncomputable def tinyFeaturesR : ExtractedFeatures ℝ where
  times := [0]
  audio_rms := [0]
  audio_rms_z := [0]
  motion_score := [0]
  motion_score_z := [0]
  excitement := [0]
  scene_cuts := [1/2]
  fade_timestamps := []
  freeze_timestamps := []
  duration := 1
  step_sec := 1/2
  version := "v2.0.0"

lemma range'_filter_ne_zero_nil (s n : ℕ) (h : s + n ≤ 1 ∨ n = 0) :
    (List.range' s n).filter (fun (j : ℕ) => j ≠ 0) = [] := by
  apply List.filter_eq_nil.mpr
  intro a ha
  rw [List.mem_range'_1] at ha
  simp only [ne_eq, decide_not, Bool.not_eq_true', decide_eq_false_iff_not, not_not]
  omega

lemma spacing_penalty_singleton (t : ℝ) (combined : List ℝ) (sp st : ℝ) :
    spacing_penalty [t] combined sp st = [0] := by
  unfold spacing_penalty
  dsimp only
  rw [List.length_singleton, List.range_succ, List.range_zero, List.nil_append,
    List.map_cons, List.map_nil]
  rw [range'_filter_ne_zero_nil _ _ (by omega)]
  rfl

lemma tiny_scene_scores : boundary_scene_scores tinyFeaturesR = [1] := by
  have hexp : (0 : ℝ) < Real.exp (-|(0 : ℝ) - 1/2| / 0.5) := Real.exp_pos _
  unfold boundary_scene_scores compute_scene_proximity_scores tinyFeaturesR
  simp only [List.map_cons, List.map_nil, List.foldl_cons, List.foldl_nil,
    List.zipWith_cons_cons, List.zipWith_nil_right]
  rw [max_eq_right hexp.le]
  unfold normalizeArr npMaxR
  simp only [List.foldl_nil]
  rw [if_pos hexp]
  simp only [List.map_cons, List.map_nil, div_self (ne_of_gt hexp)]

lemma tiny_fade_scores : boundary_fade_scores tinyFeaturesR = [0] := by
  unfold boundary_fade_scores compute_fade_proximity_scores tinyFeaturesR
  simp only [List.map_cons, List.map_nil, List.foldl_nil]
  unfold normalizeArr npMaxR
  simp only [List.foldl_nil]
  rw [if_neg (by norm_num)]

lemma tiny_valleys_nil (arr times : List ℝ) (h : arr.length = 1) (st sp : ℝ) :
    find_valleys arr times st sp = [] := by
  unfold find_valleys
  dsimp only
  rw [h, List.range_succ, List.range_zero, List.nil_append, List.filterMap_cons,
    List.filterMap_nil]
  rw [if_neg (by omega)]

lemma tiny_audio_valley_scores (config : V2PipelineConfig) :
    boundary_audio_valley_scores tinyFeaturesR config = [0] := by
  unfold boundary_audio_valley_scores tinyFeaturesR
  dsimp only
  rw [tiny_valleys_nil [0] [0] rfl _ _]
  unfold spread_valleys
  rw [List.foldl_nil, List.map_cons, List.map_nil]
  simp only [normalizeArr, npMaxR, List.foldl_nil]
  rw [if_neg (by norm_num)]

lemma tiny_motion_valley_scores (config : V2PipelineConfig) :
    boundary_motion_valley_scores tinyFeaturesR config = [0] := by
  unfold boundary_motion_valley_scores tinyFeaturesR
  dsimp only
  rw [tiny_valleys_nil [0] [0] rfl _ _]
  unfold spread_valleys
  rw [List.foldl_nil, List.map_cons, List.map_nil]
  simp only [normalizeArr, npMaxR, List.foldl_nil]
  rw [if_neg (by norm_num)]

lemma tiny_combined (config : V2PipelineConfig) :
    boundary_combined tinyFeaturesR config = [(config.boundary_w_scene : ℝ)] := by
  unfold boundary_combined
  rw [tiny_scene_scores, tiny_fade_scores, tiny_audio_valley_scores,
    tiny_motion_valley_scores]
  simp only [tinyFeaturesR, List.length_cons, List.length_nil, zero_add, List.range_succ,
    List.range_zero, List.nil_append, List.map_cons, List.map_nil, List.getD_cons_zero]
  norm_num

lemma tiny_final (config : V2PipelineConfig) (hw : (0 : ℚ) ≤ config.boundary_w_scene) :
    boundary_final tinyFeaturesR config = [(config.boundary_w_scene : ℝ)] := by
  unfold boundary_final
  rw [tiny_combined]
  simp only [tinyFeaturesR, List.length_cons, List.length_nil, zero_add, List.range_succ,
    List.range_zero, List.nil_append, List.map_cons, List.map_nil]
  rw [spacing_penalty_singleton]
  simp only [List.getD_cons_zero]
  rw [sub_zero, max_eq_right (by exact_mod_cast hw)]

lemma tiny_candidates (config : V2PipelineConfig)
    (hw : (0 : ℚ) ≤ config.boundary_w_scene)
    (hth : config.boundary_candidate_threshold ≤ config.boundary_w_scene) :
    compute_boundary_scores tinyFeaturesR config =
      [⟨0, (config.boundary_w_scene : ℝ), 1, 0, 0, 0⟩] := by
  unfold compute_boundary_scores
  rw [tiny_scene_scores, tiny_fade_scores, tiny_audio_valley_scores,
    tiny_motion_valley_scores, tiny_final config hw]
  simp only [tinyFeaturesR, List.length_cons, List.length_nil, zero_add, List.range_succ,
    List.range_zero, List.nil_append, List.filterMap_cons, List.filterMap_nil,
    List.getD_cons_zero]
  rw [if_pos (by exact_mod_cast hth)]

/-- The default configuration with `boundary_w_scene` raised to 2
(the four weights then sum to 2.55 > 1). -/
def badBoundaryConfig : V2PipelineConfig :=
  { DEFAULT_V2_CONFIG with boundary_w_scene := 2 }

/-- C7 counterexample: the claim quantifies over every `Config`; with
`boundary_w_scene = 2` the single emitted candidate has score 2 > 1 (the
code never clamps the weighted combination above by 1). -/
theorem boundary_score_above_one :
    compute_boundary_scores tinyFeaturesR badBoundaryConfig =
      [⟨0, 2, 1, 0, 0, 0⟩] ∧ ¬ ((2 : ℝ) ≤ 1) := by
  constructor
  · have h := tiny_candidates badBoundaryConfig (by norm_num [badBoundaryConfig])
      (by norm_num [badBoundaryConfig, DEFAULT_V2_CONFIG])
    rw [h]
    norm_num [badBoundaryConfig]
  · norm_num

/-- The candidate emitted on the one-sample scenario under the default
configuration. -/
noncomputable def tinyCandidate : BoundaryCandidate ℝ :=
  ⟨0, (DEFAULT_V2_CONFIG.boundary_w_scene : ℝ), 1, 0, 0, 0⟩

/-- C7 witness: the bounds theorem applied to the candidate emitted on
the one-sample scenario under the default configuration. -/
theorem compute_boundary_scores_bounds_witness :
    (0 ≤ tinyCandidate.score ∧ tinyCandidate.score ≤ 1) ∧
    (0 ≤ tinyCandidate.scene_strength ∧ tinyCandidate.scene_strength ≤ 1) ∧
    (0 ≤ tinyCandidate.audio_dip_strength ∧ tinyCandidate.audio_dip_strength ≤ 1) ∧
    (0 ≤ tinyCandidate.fade_strength ∧ tinyCandidate.fade_strength ≤ 1) ∧
    (0 ≤ tinyCandidate.motion_valley_strength ∧ tinyCandidate.motion_valley_strength ≤ 1) :=
  compute_boundary_scores_bounds tinyFeaturesR DEFAULT_V2_CONFIG
    (by norm_num [DEFAULT_V2_CONFIG]) (by norm_num [DEFAULT_V2_CONFIG])
    (by norm_num [DEFAULT_V2_CONFIG]) (by norm_num [DEFAULT_V2_CONFIG])
    (by norm_num [DEFAULT_V2_CONFIG]) tinyCandidate
    (by
      rw [tiny_candidates DEFAULT_V2_CONFIG (by norm_num [DEFAULT_V2_CONFIG])
        (by norm_num [DEFAULT_V2_CONFIG])]
      exact List.mem_singleton_self _)

/-! ### `z_score` (`features.py`), over `ℝ` because it uses `sqrt` -/

/-- `np.mean` of a real array. -/
noncomputable def listMean (l : List ℝ) : ℝ := l.sum / l.length

/-- The population variance underlying `np.std`. -/
noncomputable def listVar (l : List ℝ) : ℝ :=
  (l.map (fun x => (x - listMean l) ^ 2)).sum / l.length

/-- `np.std`: the square root of the population variance. -/
noncomputable def listStd (l : List ℝ) : ℝ := Real.sqrt (listVar l)

/-- `z_score`: zeros when the std is below `eps` (default `1e-8` in the
source), otherwise the standard normalization. -/
noncomputable def z_score (arr : List ℝ) (eps : ℝ) : List ℝ :=
  if listStd arr < eps then List.replicate arr.length 0
  else arr.map (fun x => (x - listMean arr) / listStd arr)

lemma listVar_nonneg (l : List ℝ) : 0 ≤ listVar l := by
  unfold listVar
  apply div_nonneg _ (Nat.cast_nonneg _)
  apply List.sum_nonneg
  intro x hx
  obtain ⟨y, _, rfl⟩ := List.mem_map.mp hx
  positivity

lemma listStd_sq (l : List ℝ) : listStd l ^ 2 = listVar l := by
  unfold listStd
  exact Real.sq_sqrt (listVar_nonneg l)

lemma sum_map_sub_div (l : List ℝ) (c s : ℝ) :
    (l.map (fun x => (x - c) / s)).sum = (l.sum - l.length * c) / s := by
  induction l with
  | nil => simp
  | cons x xs ih =>
    rw [List.map_cons, List.sum_cons, List.sum_cons, ih, List.length_cons]
    push_cast
    ring

lemma sum_map_div (l : List ℝ) (g : ℝ → ℝ) (k : ℝ) :
    (l.map (fun x => g x / k)).sum = (l.map g).sum / k := by
  induction l with
  | nil => simp
  | cons x xs ih =>
    rw [List.map_cons, List.map_cons, List.sum_cons, List.sum_cons, ih]
    ring

/-- C5 (amended): with the source's cutoff `eps = 1e-8`, `z_score`
returns an array of exact mean 0 and exact std 1 whenever the input's
population std is at least `eps` (in float arithmetic: |mean| < 1e-8 and
|std − 1| < 1e-8), and returns the all-zero array for every constant
input.  The claim's hypothesis "not constant" is weaker than
`std ≥ eps` and does not suffice — see the counterexample. -/
theorem z_score_spec (arr : List ℝ) :
    ((1 : ℝ)/10^8 ≤ listStd arr →
      listMean (z_score arr (1/10^8)) = 0 ∧ listStd (z_score arr (1/10^8)) = 1) ∧
    ((∃ c, ∀ x ∈ arr, x = c) → z_score arr (1/10^8) = List.replicate arr.length 0) := by
  constructor
  · intro hstd
    have hnotlt : ¬ listStd arr < 1/10^8 := not_lt.mpr hstd
    have hspos : 0 < listStd arr := lt_of_lt_of_le (by norm_num) hstd
    have hsne : listStd arr ≠ 0 := ne_of_gt hspos
    have harr : arr ≠ [] := by
      intro h
      subst h
      rw [listStd, listVar] at hspos
      simp at hspos
    have hn : (arr.length : ℝ) ≠ 0 := Nat.cast_ne_zero.mpr (List.length_pos.mpr harr).ne'
    have hvpos : 0 < listVar arr := by
      have := listStd_sq arr
      nlinarith
    rw [z_score, if_neg hnotlt]
    have hmean : listMean (arr.map fun x => (x - listMean arr) / listStd arr) = 0 := by
      unfold listMean
      rw [List.length_map, sum_map_sub_div]
      have h2 : (arr.length : ℝ) * (arr.sum / arr.length) = arr.sum := by
        field_simp
      rw [h2, sub_self, zero_div, zero_div]
    refine ⟨hmean, ?_⟩
    have hXv : (arr.map (fun x => (x - listMean arr) ^ 2)).sum =
        listVar arr * (arr.length : ℝ) := by
      unfold listVar
      field_simp
    have hvar : listVar (arr.map fun x => (x - listMean arr) / listStd arr) = 1 := by
      unfold listVar
      rw [hmean, List.length_map, List.map_map]
      have hfun : ((fun y => (y - 0) ^ 2) ∘ fun x => (x - listMean arr) / listStd arr) =
          fun x => ((x - listMean arr) ^ 2) / (listStd arr ^ 2) := by
        funext x
        rw [Function.comp_apply, sub_zero, div_pow]
      rw [hfun, sum_map_div, listStd_sq, hXv]
      field_simp
    rw [listStd, hvar, Real.sqrt_one]
  · rintro ⟨c, hc⟩
    rw [z_score, if_pos ?_]
    rcases eq_or_ne arr [] with h | h
    · subst h
      rw [listStd, listVar]
      simp only [List.map_nil, List.sum_nil, List.length_nil, Nat.cast_zero, zero_div,
        Real.sqrt_zero]
      norm_num
    · have hn : (arr.length : ℝ) ≠ 0 := Nat.cast_ne_zero.mpr (List.length_pos.mpr h).ne'
      have hmean : listMean arr = c := by
        unfold listMean
        rw [List.sum_eq_card_nsmul arr c hc, nsmul_eq_mul]
        field_simp
      have hvar : listVar arr = 0 := by
        unfold listVar
        rw [hmean]
        have : (arr.map (fun x => (x - c) ^ 2)).sum = 0 := by
          apply List.sum_eq_zero
          intro y hy
          obtain ⟨x, hx, rfl⟩ := List.mem_map.mp hy
          rw [hc x hx]
          ring
        rw [this, zero_div]
      rw [listStd, hvar, Real.sqrt_zero]
      norm_num

/-- C5 counterexample: the input `[0, 2e-9]` is not constant, yet its
population std is `1e-9 < 1e-8`, so `z_score` returns the all-zero
array, whose std is `0` — not within `1e-8` of `1`. -/
theorem z_score_nonconstant_not_normalized :
    (0 : ℝ) ≠ 2/10^9 ∧
    z_score [0, 2/10^9] (1/10^8) = [0, 0] ∧
    ¬ |listStd (z_score [0, 2/10^9] (1/10^8)) - 1| < 1/10^8 := by
  have hvar : listVar [0, 2/10^9] = ((1 : ℝ)/10^9) ^ 2 := by
    norm_num [listVar, listMean]
  have hstd : listStd [0, 2/10^9] = 1/10^9 := by
    rw [listStd, hvar, Real.sqrt_sq (by norm_num)]
  have hz : z_score [0, 2/10^9] (1/10^8) = [0, 0] := by
    rw [z_score, if_pos (by rw [hstd]; norm_num)]
    rfl
  refine ⟨by norm_num, hz, ?_⟩
  rw [hz]
  have hv0 : listVar ([0, 0] : List ℝ) = 0 := by
    norm_num [listVar, listMean]
  rw [listStd, hv0, Real.sqrt_zero]
  norm_num

theorem z_score_spec_witness :
    ((1 : ℝ)/10^8 ≤ listStd [0, 2] ∧ listStd (z_score [0, 2] (1/10^8)) = 1) ∧
    z_score [5, 5] (1/10^8) = [0, 0] := by
  have hv : listVar ([0, 2] : List ℝ) = 1 := by
    norm_num [listVar, listMean]
  have hstd : listStd ([0, 2] : List ℝ) = 1 := by
    rw [listStd, hv, Real.sqrt_one]
  have h1 : (1 : ℝ)/10^8 ≤ listStd [0, 2] := by rw [hstd]; norm_num
  have h2 := (z_score_spec [0, 2]).1 h1
  have h3 := (z_score_spec [5, 5]).2 ⟨5, by
    intro x hx
    simp only [List.mem_cons, List.not_mem_nil, or_false] at hx
    rcases hx with rfl | rfl <;> rfl⟩
  exact ⟨⟨h1, h2.2⟩, h3.trans rfl⟩

/-! ### Determinism of the post-extraction stages -/

/-- C9: every stage after feature extraction is a pure function of its
inputs — `detect_anchors`, `compute_boundary_scores`, `select_windows`
and `apply_post_filters` (windows, report and decisions alike) give
identical outputs on identical inputs, including identical per-frame
hash results from the decoder. -/
theorem pipeline_deterministic
    (f₁ f₂ : ExtractedFeatures ℚ) (fr₁ fr₂ : ExtractedFeatures ℝ)
    (c₁ c₂ : V2PipelineConfig) (a₁ a₂ : List Anchor)
    (b₁ b₂ : List (BoundaryCandidate ℚ)) (w₁ w₂ : List ClipWindow)
    (hash₁ hash₂ : ℚ → Option String)
    (hf : f₁ = f₂) (hfr : fr₁ = fr₂) (hc : c₁ = c₂) (ha : a₁ = a₂)
    (hb : b₁ = b₂) (hw : w₁ = w₂) (hh : hash₁ = hash₂) :
    detect_anchors f₁ c₁ = detect_anchors f₂ c₂ ∧
    compute_boundary_scores fr₁ c₁ = compute_boundary_scores fr₂ c₂ ∧
    select_windows a₁ b₁ f₁ c₁ = select_windows a₂ b₂ f₂ c₂ ∧
    apply_post_filters w₁ f₁ hash₁ c₁ = apply_post_filters w₂ f₂ hash₂ c₂ := by
  subst hf
  subst hfr
  subst hc
  subst ha
  subst hb
  subst hw
  subst hh
  exact ⟨rfl, rfl, rfl, rfl⟩

theorem pipeline_deterministic_witness :
    detect_anchors emptyFeatures DEFAULT_V2_CONFIG =
      detect_anchors emptyFeatures DEFAULT_V2_CONFIG ∧
    compute_boundary_scores tinyFeaturesR DEFAULT_V2_CONFIG =
      compute_boundary_scores tinyFeaturesR DEFAULT_V2_CONFIG ∧
    select_windows [] [] emptyFeatures DEFAULT_V2_CONFIG =
      select_windows [] [] emptyFeatures DEFAULT_V2_CONFIG ∧
    apply_post_filters [] emptyFeatures (fun _ => none) DEFAULT_V2_CONFIG =
      apply_post_filters [] emptyFeatures (fun _ => none) DEFAULT_V2_CONFIG :=
  pipeline_deterministic emptyFeatures emptyFeatures tinyFeaturesR tinyFeaturesR
    DEFAULT_V2_CONFIG DEFAULT_V2_CONFIG [] [] [] [] [] []
    (fun _ => none) (fun _ => none) rfl rfl rfl rfl rfl rfl rfl

end Autoclip
